import Mathlib

/-!
Verification of the Malaysia Prayer Time MCP server (waktu_solat package).

This file gives a shallow embedding, in Lean, of the parts of the Python
source that the checked claims are about:

* `src/waktu_solat/models.py`   — `PrayerTimes` / `Zone` validation,
* `src/waktu_solat/client.py`   — `HTTPClient._request`, `get_prayer_times`,
                                   `get_current_prayer`,
* `src/waktu_solat/cache.py`    — `Cache.get` / `Cache.set` / eviction,
* `src/waktu_solat/server.py`   — `RateLimiter.is_allowed`,
                                   `WaktuSolatServer.handle_request`,
                                   `handle_list_zones`.

Python values flowing through the code are modelled by an explicit `Json`
universe; Python exceptions by an `Except PyErr` result; wall-clock time by
an explicit parameter.  Python regular expressions and `strptime` formats
are modelled character-by-character, including `re`-module quirks that the
code inherits (e.g. `$` also matching just before one trailing newline).
-/

namespace WaktuSolat

/-- Universe of parsed-JSON / Python values handled by the code.  Floats are
omitted from the model: as a prayer-time value a float takes the
non-int/non-str branch (normalised to `None`), and as a `year`/`month`/`day`
value it aborts with a format error; no checked claim depends on floats. -/
inductive Json where
  | null
  | bool (b : Bool)
  | int (n : ℤ)
  | str (s : String)
  | arr (xs : List Json)
  | obj (fields : List (String × Json))

/-- Python exceptions raised by the modelled code.  The first four
constructors are the `APIError` family of `client.py` (`APIError` itself,
`ValidationError`, `ResponseError`, `ConnectionError`); the rest are
built-in Python exceptions that can escape the shown code paths. -/
inductive PyErr where
  | apiError (msg : String)
  | validationError (msg : String)
  | responseError (msg : String)
  | connectionError (msg : String)
  | typeError
  | attributeError
  | valueError (msg : String)
deriving Repr, DecidableEq

/-- Membership in the `APIError` exception family (`client.py` lines 36-57). -/
def PyErr.isAPIFamily : PyErr → Bool
  | .apiError _ => true
  | .validationError _ => true
  | .responseError _ => true
  | .connectionError _ => true
  | _ => false

/-- Is the error precisely the `ResponseError` variant? -/
def PyErr.isResponseError : PyErr → Bool
  | .responseError _ => true
  | _ => false

/-! ### Python-dict helpers

`json.loads` collapses duplicate keys keeping the last occurrence, so
lookups below take the last binding, mirroring the dicts the code sees. -/

/-- `fields[k]` with Python/JSON last-occurrence-wins semantics. -/
def jfindVal (fields : List (String × Json)) (k : String) : Option Json :=
  match fields with
  | [] => none
  | (k2, v) :: rest =>
    match jfindVal rest k with
    | some v2 => some v2
    | none => if k2 = k then some v else none

/-- Python `k in d` for a dict. -/
def jhasKey (fields : List (String × Json)) (k : String) : Bool :=
  (jfindVal fields k).isSome

/-- Python `d.get(k, default)`. -/
def jgetD (fields : List (String × Json)) (k : String) (d : Json) : Json :=
  (jfindVal fields k).getD d

/-- Python truthiness of a JSON value (`if not data: ...`). -/
def jsonTruthy : Json → Bool
  | .null => false
  | .bool b => b
  | .int n => n ≠ 0
  | .str s => s ≠ ""
  | .arr xs => ¬ xs.isEmpty
  | .obj fs => ¬ fs.isEmpty

/-- Does this Json value equal the Python string `s` (Python `==`)? -/
def jeqStr (s : String) : Json → Bool
  | .str t => s = t
  | _ => false

mutual
/-- Python `repr` of a value, as used when a value is interpolated inside a
container.  String escaping inside `repr` is not modelled (no claim looks
inside a repr-quoted string). -/
def pyRepr : Json → String
  | .null => "None"
  | .bool b => if b then "True" else "False"
  | .int n => toString n
  | .str s => "\x27" ++ s ++ "\x27"
  | .arr xs => "[" ++ pyReprComma xs ++ "]"
  | .obj fs => "\x7b" ++ pyReprFields fs ++ "\x7d"

/-- Comma-joined reprs of the elements of a list. -/
def pyReprComma : List Json → String
  | [] => ""
  | [x] => pyRepr x
  | x :: rest => pyRepr x ++ ", " ++ pyReprComma rest

/-- Comma-joined reprs of the bindings of a dict. -/
def pyReprFields : List (String × Json) → String
  | [] => ""
  | [(k, v)] => "\x27" ++ k ++ "\x27: " ++ pyRepr v
  | (k, v) :: rest => "\x27" ++ k ++ "\x27: " ++ pyRepr v ++ ", " ++ pyReprFields rest
end

/-- Python `str` of a value, as used by f-string interpolation (`f"{x}"`). -/
def pyStr : Json → String
  | .str s => s
  | j => pyRepr j

/-! ### Character-level models of the regular expressions and strptime
formats used by the code. -/

/-- ASCII decimal digit (`\d`; non-ASCII Unicode digits, which Python `\d`
also accepts, are outside the modelled alphabet). -/
def isDig (c : Char) : Bool := c.isDigit

/-- `[A-Z]`. -/
def isUpperAZ (c : Char) : Bool := 'A' ≤ c && c ≤ 'Z'

/-- Core of `TIME_PATTERN = ^([0-1]?[0-9]|2[0-3]):[0-5][0-9]$`
(`models.py` line 14) without the `$` newline quirk. -/
def timePatternCore (s : String) : Bool :=
  match s.toList with
  | [h, ':', m1, m2] =>
    isDig h && ('0' ≤ m1 && m1 ≤ '5') && isDig m2
  | [h1, h2, ':', m1, m2] =>
    ((('0' ≤ h1 && h1 ≤ '1') && isDig h2) || (h1 = '2' && ('0' ≤ h2 && h2 ≤ '3')))
      && ('0' ≤ m1 && m1 ≤ '5') && isDig m2
  | _ => false

/-- `TIME_PATTERN.match(s)` as Python evaluates it: `$` matches at the end
of the string or just before one final newline. -/
def timePattern (s : String) : Bool :=
  timePatternCore s || (s.endsWith "\n" && timePatternCore (s.dropRight 1))

/-- The spec's own words: a STRICT `HH:MM` 24-hour pattern — exactly two
hour digits `00`-`23`, a colon, exactly two minute digits `00`-`59`, and
nothing else.  Used only to compare the spec wording against the code's
`TIME_PATTERN`. -/
def strictHHMM (s : String) : Bool :=
  match s.toList with
  | [h1, h2, ':', m1, m2] =>
    ((('0' ≤ h1 && h1 ≤ '1') && isDig h2) || (h1 = '2' && ('0' ≤ h2 && h2 ≤ '3')))
      && ('0' ≤ m1 && m1 ≤ '5') && isDig m2
  | _ => false

/-- Core of the zone regex `^[A-Z]{3}\d{2}$` (`client.py` line 199). -/
def zonePatternCore (s : String) : Bool :=
  match s.toList with
  | [a, b, c, d, e] => isUpperAZ a && isUpperAZ b && isUpperAZ c && isDig d && isDig e
  | _ => false

/-- `re.match(r"^[A-Z]{3}\d{2}$", zone)`, including the `$` newline quirk. -/
def zoneMatch (s : String) : Bool :=
  zonePatternCore s || (s.endsWith "\n" && zonePatternCore (s.dropRight 1))

/-- Numeric value of a digit list (most significant first). -/
def digitsVal (cs : List Char) : ℕ :=
  cs.foldl (fun acc c => acc * 10 + (c.toNat - '0'.toNat)) 0

/-! ### `strptime` models

CPython's `_strptime` compiles each directive to a regex fragment:
`%Y ↦ \d\d\d\d`, `%m ↦ 1[0-2]|0[1-9]|[1-9]`, `%d ↦ 3[01]|[12]\d|0[1-9]|[1-9]`,
`%H ↦ 2[0-3]|[0-1]\d|\d`, `%M ↦ [0-5]\d|\d`, and raises `ValueError` unless
the whole input is consumed.  Because every two-digit alternative ends in a
digit while the following literal is `:` / `-` / end-of-input, greedy
longest-first matching without backtracking is equivalent, which is what the
parsers below implement.  `strptime` then builds a `datetime`, which
additionally checks `1 ≤ year` and that the day exists in the month. -/

/-- Take a 2-digit group if its two heads satisfy `p1`/`p2`, else a 1-digit
group satisfying `q1`; returns the value and the rest of the input. -/
def takeNum2or1 (p1 p2 q1 : Char → Bool) : List Char → Option (ℕ × List Char)
  | c1 :: c2 :: rest =>
    if p1 c1 && p2 c2 then some (digitsVal [c1, c2], rest)
    else if q1 c1 then some (digitsVal [c1], c2 :: rest)
    else none
  | [c1] => if q1 c1 then some (digitsVal [c1], []) else none
  | [] => none

/-- `%H`: `2[0-3]|[0-1]\d|\d`. -/
def takeHour (cs : List Char) : Option (ℕ × List Char) :=
  match cs with
  | '2' :: c2 :: rest =>
    if '0' ≤ c2 && c2 ≤ '3' then some (20 + digitsVal [c2], rest)
    else some (2, c2 :: rest)
  | c1 :: c2 :: rest =>
    if ('0' ≤ c1 && c1 ≤ '1') && isDig c2 then some (digitsVal [c1, c2], rest)
    else if isDig c1 then some (digitsVal [c1], c2 :: rest)
    else none
  | [c1] => if isDig c1 then some (digitsVal [c1], []) else none
  | [] => none

/-- `%M`: `[0-5]\d|\d`. -/
def takeMinute (cs : List Char) : Option (ℕ × List Char) :=
  takeNum2or1 (fun c => '0' ≤ c && c ≤ '5') isDig isDig cs

/-- `%m`: `1[0-2]|0[1-9]|[1-9]`. -/
def takeMonth (cs : List Char) : Option (ℕ × List Char) :=
  match cs with
  | '1' :: c2 :: rest =>
    if '0' ≤ c2 && c2 ≤ '2' then some (10 + digitsVal [c2], rest)
    else some (1, c2 :: rest)
  | '0' :: c2 :: rest =>
    if '1' ≤ c2 && c2 ≤ '9' then some (digitsVal [c2], rest) else none
  | c1 :: rest =>
    if '1' ≤ c1 && c1 ≤ '9' then some (digitsVal [c1], rest) else none
  | [] => none

/-- `%d`: `3[01]|[12]\d|0[1-9]|[1-9]`. -/
def takeDay (cs : List Char) : Option (ℕ × List Char) :=
  match cs with
  | '3' :: c2 :: rest =>
    if c2 = '0' || c2 = '1' then some (30 + digitsVal [c2], rest)
    else some (3, c2 :: rest)
  | c1 :: c2 :: rest =>
    if (c1 = '1' || c1 = '2') && isDig c2 then some (digitsVal [c1, c2], rest)
    else if c1 = '0' then (if '1' ≤ c2 && c2 ≤ '9' then some (digitsVal [c2], rest) else none)
    else if '1' ≤ c1 && c1 ≤ '9' then some (digitsVal [c1], c2 :: rest)
    else none
  | [c1] => if '1' ≤ c1 && c1 ≤ '9' then some (digitsVal [c1], []) else none
  | [] => none

/-- Gregorian leap year. -/
def isLeap (y : ℕ) : Bool := (y % 4 = 0 && y % 100 ≠ 0) || y % 400 = 0

/-- Days in a month of a given year. -/
def daysInMonth (y m : ℕ) : ℕ :=
  if m = 2 then (if isLeap y then 29 else 28)
  else if m = 4 || m = 6 || m = 9 || m = 11 then 30
  else 31

/-- `datetime.strptime(s, "%Y-%m-%d")`: `none` models the `ValueError`. -/
def parseDate (s : String) : Option (ℕ × ℕ × ℕ) :=
  match s.toList with
  | y1 :: y2 :: y3 :: y4 :: '-' :: rest =>
    if isDig y1 && isDig y2 && isDig y3 && isDig y4 then
      let y := digitsVal [y1, y2, y3, y4]
      match takeMonth rest with
      | some (m, '-' :: rest2) =>
        match takeDay rest2 with
        | some (d, []) =>
          if 1 ≤ y && d ≤ daysInMonth y m then some (y, m, d) else none
        | _ => none
      | _ => none
    else none
  | _ => none

/-- `datetime.strptime(s, "%H:%M").time()`, returned as seconds after
midnight: `none` models the `ValueError`. -/
def parseHM (s : String) : Option ℕ :=
  match takeHour s.toList with
  | some (h, ':' :: rest) =>
    match takeMinute rest with
    | some (m, []) => some (3600 * h + 60 * m)
    | _ => none
  | _ => none

/-- Month abbreviations as produced/accepted by `%b`, lowercased
(`strptime` matches month names case-insensitively). -/
def monthAbbrevs : List String :=
  ["jan", "feb", "mar", "apr", "may", "jun", "jul", "aug", "sep", "oct", "nov", "dec"]

/-- Full month names accepted by `%B`, lowercased. -/
def monthFulls : List String :=
  ["january", "february", "march", "april", "may", "june", "july", "august",
   "september", "october", "november", "december"]

/-- `datetime.strptime(s, "%b").month` (whole-string, case-insensitive). -/
def monthFromAbbrev (s : String) : Option ℕ :=
  let i := monthAbbrevs.findIdx (fun a => a = s.toLower)
  if i < monthAbbrevs.length then some (i + 1) else none

/-- `datetime.strptime(s, "%B").month` (whole-string, case-insensitive). -/
def monthFromFull (s : String) : Option ℕ :=
  let i := monthFulls.findIdx (fun a => a = s.toLower)
  if i < monthFulls.length then some (i + 1) else none

/-- `datetime.now().strftime("%b").upper()`, given the current month. -/
def monthAbbrevUpper (m : ℕ) : String :=
  (monthAbbrevs.getD (m - 1) "jan").toUpper

/-- Weekday names as produced by `strftime("%A")`, indexed 0 = Monday. -/
def weekdayNames : List String :=
  ["Monday", "Tuesday", "Wednesday", "Thursday", "Friday", "Saturday", "Sunday"]

/-- Days from the proleptic-Gregorian epoch 0001-01-01 to `y-m-d`
(the standard `datetime.toordinal` computation, minus one). -/
def dateOrdinal (y m d : ℕ) : ℕ :=
  let yp := y - 1
  let daysBeforeYear := yp * 365 + yp / 4 - yp / 100 + yp / 400
  let daysBeforeMonth :=
    ([0, 31, 59, 90, 120, 151, 181, 212, 243, 273, 304, 334].getD (m - 1) 0)
      + (if 2 < m && isLeap y then 1 else 0)
  daysBeforeYear + daysBeforeMonth + (d - 1)

/-- `datetime.strptime(date_str, "%Y-%m-%d").strftime("%A")`.
0001-01-01 was a Monday in the proleptic Gregorian calendar. -/
def weekdayName (y m d : ℕ) : String :=
  weekdayNames.getD (dateOrdinal y m d % 7) ""


/-! ### Timestamp normalisation (`client.py` lines 271-294 and 453-476) -/

/-- Local-time offset from UTC in seconds (Malaysia, UTC+8); the code calls
`datetime.fromtimestamp` with the process's local zone. -/
def tzOffset : ℤ := 28800

/-- `datetime.fromtimestamp(t).strftime("%H:%M")` digested to (hour, minute):
`none` models the `ValueError/OSError/OverflowError` branch for timestamps
outside the representable `datetime` range. -/
def fromtimestampHM (t : ℤ) : Option (ℕ × ℕ) :=
  let u := t + tzOffset
  if u < -62135596800 ∨ 253402300799 < u then none
  else
    let s := (u % 86400).toNat
    some (s / 3600, s % 3600 / 60)

/-- Zero-pad a natural number to two digits (`strftime` field). -/
def pad2 (n : ℕ) : String :=
  if n < 10 then "0" ++ toString n else toString n

/-- `dt.strftime("%H:%M")`. -/
def fmtHM (h m : ℕ) : String := pad2 h ++ ":" ++ pad2 m

/-- Python `f"{n:02d}"` for an int: zero-pad to width 2 (sign included). -/
def fmt02d (n : ℤ) : String :=
  if 0 ≤ n ∧ n < 10 then "0" ++ toString n else toString n

/-- One time field through the normaliser (`client.py` lines 275-294 and
457-476): `None` stays absent, an int is converted from epoch seconds (a
Python `bool` IS an int), a string passes through raw, anything else
becomes `None`. -/
def convTime : Json → Option String
  | .null => none
  | .int t => (fromtimestampHM t).map (fun p => fmtHM p.1 p.2)
  | .bool b => (fromtimestampHM (if b then 1 else 0)).map (fun p => fmtHM p.1 p.2)
  | .str s => some s
  | _ => none

/-! ### The `PrayerTimes` model (`models.py` lines 17-61) -/

/-- The six scanned prayer-time fields, in the order the code lists them. -/
inductive Prayer where
  | fajr | syuruk | dhuhr | asr | maghrib | isha
deriving Repr, DecidableEq

/-- `prayers = ["fajr", "syuruk", "dhuhr", "asr", "maghrib", "isha"]`. -/
def prayersList : List Prayer :=
  [.fajr, .syuruk, .dhuhr, .asr, .maghrib, .isha]

/-- The Python name of a prayer field. -/
def Prayer.name : Prayer → String
  | .fajr => "fajr"
  | .syuruk => "syuruk"
  | .dhuhr => "dhuhr"
  | .asr => "asr"
  | .maghrib => "maghrib"
  | .isha => "isha"

/-- A validated `PrayerTimes` record (`models.py`): `date` and `day` are
strings, `imsak` is optional, the six daily times are required strings. -/
structure PrayerTimes where
  date : String
  day : String
  imsak : Option String
  fajr : String
  syuruk : String
  dhuhr : String
  asr : String
  maghrib : String
  isha : String
deriving Repr, DecidableEq

/-- Project a required time field out of a record. -/
def PrayerTimes.timeOf (r : PrayerTimes) : Prayer → String
  | .fajr => r.fajr
  | .syuruk => r.syuruk
  | .dhuhr => r.dhuhr
  | .asr => r.asr
  | .maghrib => r.maghrib
  | .isha => r.isha

/-- The `imsak` clause of the invariant: absent, or matching the pattern. -/
def imsakOk : Option String → Bool
  | none => true
  | some s => timePattern s

/-- The invariant enforced by the `PrayerTimes` field validators:
`validate_date` (the date must `strptime` as `%Y-%m-%d`) and
`validate_time` (every present time field must match `TIME_PATTERN`). -/
def validRecord (r : PrayerTimes) : Bool :=
  (parseDate r.date).isSome
    && imsakOk r.imsak
    && timePattern r.fajr && timePattern r.syuruk && timePattern r.dhuhr
    && timePattern r.asr && timePattern r.maghrib && timePattern r.isha

/-- pydantic validation of one required time field (`validate_time`,
`models.py` line 53): it must be a present string matching `TIME_PATTERN`. -/
def reqT (v : Option String) : Option String :=
  match v with
  | some s => if timePattern s then some s else none
  | none => none

/-- pydantic validation of the optional `imsak` field: absent stays
absent, a string must match `TIME_PATTERN`, any other type is rejected. -/
def imsT (v : Json) : Option (Option String) :=
  match v with
  | .null => some none
  | .str s => if timePattern s then some (some s) else none
  | _ => none

/-- `PrayerTimes.model_validate(transformed)` (`client.py` line 313).
`dateJ` / `imsakJ` arrive as raw Python values; pydantic rejects non-string
values for `str` fields and runs the two field validators (`validate_date`
and `validate_time`); a failure is the `ValueError` that line 314 catches,
modelled as `none`. -/
def modelValidate (dateJ : Json) (dayStr : String) (imsakJ : Json)
    (times : Prayer → Option String) : Option PrayerTimes :=
  match dateJ with
  | .str ds =>
    if (parseDate ds).isSome then
      match imsT imsakJ, reqT (times .fajr), reqT (times .syuruk), reqT (times .dhuhr),
            reqT (times .asr), reqT (times .maghrib), reqT (times .isha) with
      | some ims, some f, some sy, some dh, some a, some mg, some ish =>
        some ⟨ds, dayStr, ims, f, sy, dh, a, mg, ish⟩
      | _, _, _, _, _, _, _ => none
    else none
  | _ => none

/-! ### `HTTPClient.get_prayer_times` (`client.py` lines 185-323) -/

/-- Does `needle` start `hay`? -/
def listStartsWith : List Char → List Char → Bool
  | [], _ => true
  | _ :: _, [] => false
  | n :: ns, h :: hs => n = h && listStartsWith ns hs

/-- Is `needle` a contiguous substring of `hay` (Python `sub in str`)? -/
def listSubOf (needle : List Char) : List Char → Bool
  | [] => needle.isEmpty
  | h :: t => listStartsWith needle (h :: t) || listSubOf needle t

/-- Python `key in item` for an arbitrary value: dict-key test, list
membership, substring test on strings, `TypeError` for the rest. -/
def pyContains (item : Json) (k : String) : Except PyErr Bool :=
  match item with
  | .obj fs => .ok (jhasKey fs k)
  | .arr xs => .ok (xs.any (jeqStr k))
  | .str s => .ok (listSubOf k.toList s.toList)
  | _ => .error .typeError

/-- `all(key in item for key in [...])` with Python short-circuiting. -/
def allContains (item : Json) : List String → Except PyErr Bool
  | [] => .ok true
  | k :: rest =>
    match pyContains item k with
    | .error e => .error e
    | .ok true => allContains item rest
    | .ok false => .ok false

/-- The required keys of `client.py` line 232. -/
def requiredKeys : List String :=
  ["day", "fajr", "dhuhr", "asr", "maghrib", "isha", "syuruk"]

/-- The `datetime.now()` values consulted by the normaliser. -/
structure NowCtx where
  year : ℤ
  month : ℕ

/-- Python `f"{x:02d}"` for an arbitrary value: ints (and bools, which are
ints) format; a string raises `ValueError` (unknown format code d), other
types raise `TypeError` (unsupported format string). -/
def fmtJson02d : Json → Except PyErr String
  | .int n => .ok (fmt02d n)
  | .bool b => .ok (fmt02d (if b then 1 else 0))
  | .str _ => .error (.valueError "Unknown format code d")
  | _ => .error .typeError

/-- `month_num` (`client.py` lines 256-267): a string month is parsed with
`%b`, then `%B`, defaulting to the current month; a non-string is kept raw. -/
def monthNumOf (monthJ : Json) (now : NowCtx) : Json :=
  match monthJ with
  | .str s =>
    match monthFromAbbrev s with
    | some m => .int m
    | none =>
      match monthFromFull s with
      | some m => .int m
      | none => .int now.month
  | j => j

/-- The date/weekday computation for one item (`client.py` lines 237-302):
returns the raw value put in `transformed["date"]` together with
`transformed["day"]`.  The `strptime` on line 299 sits OUTSIDE the
`try/except ValueError`, so its failures escape `get_prayer_times`. -/
def dateAndDay (data : Json) (now : NowCtx) (ifs : List (String × Json)) :
    Except PyErr (Json × String) :=
  if jhasKey ifs "date" then
    let dateJ := jgetD ifs "date" .null
    if jsonTruthy dateJ then
      match dateJ with
      | .str s =>
        match parseDate s with
        | some (y, m, d) => .ok (dateJ, weekdayName y m d)
        | none => .error (.valueError "time data does not match format")
      | _ => .error .typeError
    else
      .ok (dateJ, "")
  else
    let yearJ := match data with
      | .obj dfs => jgetD dfs "year" (.int now.year)
      | _ => .int now.year
    let monthJ := match data with
      | .obj dfs => jgetD dfs "month" (.str (monthAbbrevUpper now.month))
      | _ => .str (monthAbbrevUpper now.month)
    let dayJ := jgetD ifs "day" (.int 1)
    match fmtJson02d (monthNumOf monthJ now) with
    | .error e => .error e
    | .ok s2 =>
      match fmtJson02d dayJ with
      | .error e => .error e
      | .ok s3 =>
        let dateStr := pyStr yearJ ++ "-" ++ s2 ++ "-" ++ s3
        match parseDate dateStr with
        | some (y, m, d) => .ok (.str dateStr, weekdayName y m d)
        | none => .error (.valueError "time data does not match format")

/-- One iteration of the item loop (`client.py` lines 228-316): `.ok none`
is a skipped item, `.ok (some r)` an appended record, `.error` an exception
escaping `get_prayer_times`. -/
def processItem (data : Json) (now : NowCtx) (item : Json) :
    Except PyErr (Option PrayerTimes) :=
  match allContains item requiredKeys with
  | .error e => .error e
  | .ok false => .ok none
  | .ok true =>
    match item with
    | .obj ifs =>
      match dateAndDay data now ifs with
      | .error e => .error e
      | .ok dd =>
        .ok (modelValidate dd.1 dd.2 (jgetD ifs "imsak" .null)
          (fun p => convTime (jgetD ifs p.name .null)))
    | _ => .error .attributeError

/-- The whole item loop, left to right. -/
def processItems (data : Json) (now : NowCtx) : List Json → Except PyErr (List PrayerTimes)
  | [] => .ok []
  | item :: rest =>
    match processItem data now item with
    | .error e => .error e
    | .ok r =>
      match processItems data now rest with
      | .error e => .error e
      | .ok tail =>
        .ok (match r with | some pt => pt :: tail | none => tail)

/-- `HTTPClient.get_prayer_times(zone)` given the decoded upstream payload:
zone-format validation, payload-shape dispatch, per-item normalisation.
The final `if not prayer_times: return []` is the identity on lists and is
absorbed. -/
def shapePrayers (payload : Json) : Except PyErr (List Json) :=
  match payload with
  | .obj fs =>
    match jfindVal fs "prayers" with
    | some (.arr xs) => .ok xs
    | _ => .error (.responseError "Invalid prayer times data format in response")
  | .arr xs => .ok xs
  | _ => .error (.responseError "Invalid prayer times data format in response")

/-- Zone-format validation, the shape dispatch and the item loop,
composed: `HTTPClient.get_prayer_times`. -/
def getPrayerTimes (zone : String) (payload : Json) (now : NowCtx) :
    Except PyErr (List PrayerTimes) :=
  if ¬ zoneMatch zone then
    .error (.validationError "Invalid zone format. Expected format: ABC12")
  else
    match shapePrayers payload with
    | .error e => .error e
    | .ok prayersData =>
      if prayersData.isEmpty then .ok []
      else processItems payload now prayersData

/-! ### `HTTPClient.get_current_prayer` — the per-day scan
(`client.py` lines 453-505).  The row the code selected for "today" is the
starting point; `now` is the local time of day in seconds after midnight
(`datetime.now().time()` compared against whole-minute checkpoints). -/

/-- The `times` dict built from the selected row (lines 453-476). -/
def timesFromRow (row : List (String × Json)) (p : Prayer) : Option String :=
  convTime (jgetD row p.name .null)

/-- Is checkpoint `p` present, parseable, and strictly later than `now`? -/
def isLaterChk (times : Prayer → Option String) (now : ℕ) (p : Prayer) : Bool :=
  match (times p).bind parseHM with
  | some t => now < t
  | none => false

/-- The scan loop (lines 483-494): `prev` is the list element before the
current one (`prayers[i-1]`), whether or not it parsed. -/
def scanGo (times : Prayer → Option String) (now : ℕ) :
    Option Prayer → List Prayer → Option Prayer × Option Prayer
  | _, [] => (none, none)
  | prev, p :: rest =>
    if isLaterChk times now p then (prev, some p)
    else scanGo times now (some p) rest

/-- `current_prayer` / `next_prayer` as returned (lines 478-505), including
the passed-all-prayers fallback to `("isha", "fajr")`. -/
def currentNext (times : Prayer → Option String) (now : ℕ) :
    Option String × Option String :=
  match scanGo times now none prayersList with
  | (none, none) => (some "isha", some "fajr")
  | (c, n) => (c.map Prayer.name, n.map Prayer.name)

/-! ### The TTL cache (`cache.py`).  Wall-clock time is an explicit `ℚ`
parameter (one `now` per lock-protected operation); the store is the dict
in insertion order, which Python preserves. -/

/-- `CacheEntry` (`cache.py` lines 28-33). -/
structure CEntry (α : Type) where
  value : α
  expiresAt : ℚ
deriving DecidableEq

/-- The dict `self._store`, in insertion order. -/
abbrev Store (α : Type) := List (String × CEntry α)

/-- `_clean_expired` (lines 46-55): drop entries with `expires_at <= now`. -/
def cleanExpired (now : ℚ) (store : Store α) : Store α :=
  store.filter (fun kv => ¬ kv.2.expiresAt ≤ now)

/-- `max(1, self._max_size // 10)` (line 61). -/
def numToRemove (maxSize : ℕ) : ℕ := max 1 (maxSize / 10)

/-- `_ensure_capacity` (lines 57-65): when the store is at or above
`max_size`, delete the keys of the first `numToRemove` entries of the store
sorted (stably) by expiry. -/
def ensureCapacity (maxSize : ℕ) (store : Store α) : Store α :=
  if maxSize ≤ store.length then
    let victims :=
      ((store.mergeSort (fun a b => decide (a.2.expiresAt ≤ b.2.expiresAt))).take
        (numToRemove maxSize)).map Prod.fst
    store.filter (fun kv => ¬ victims.contains kv.1)
  else store

/-- Python dict assignment `d[k] = e`: replace in place, else append. -/
def dictSet (store : Store α) (k : String) (e : CEntry α) : Store α :=
  if store.any (fun kv => kv.1 = k) then
    store.map (fun kv => if kv.1 = k then (k, e) else kv)
  else store ++ [(k, e)]

/-- `Cache.get` (lines 67-91): returns the hit (if any) and the store as the
operation leaves it. -/
def cacheGet (now : ℚ) (store : Store α) (k : String) : Option α × Store α :=
  let s := cleanExpired now store
  match s.find? (fun kv => kv.1 = k) with
  | none => (none, s)
  | some kv =>
    if kv.2.expiresAt ≤ now then (none, s.eraseP (fun kv2 => kv2.1 = k))
    else (some kv.2.value, s)

/-- `Cache.set` (lines 93-115): `.error` models the `ValueError` for a
non-positive explicit TTL (raised before any mutation). -/
def cacheSet (now : ℚ) (maxSize : ℕ) (defaultTtl : ℤ) (store : Store α)
    (k : String) (v : α) (ttl : Option ℤ) : Except String (Store α) :=
  if ttl.isSome ∧ ttl.getD 0 ≤ 0 then
    .error "TTL must be a positive integer"
  else
    let s1 := cleanExpired now store
    let s2 := ensureCapacity maxSize s1
    let eff := ttl.getD defaultTtl
    .ok (dictSet s2 k ⟨v, now + (eff : ℚ)⟩)

/-- A sequence of `set` operations; a raising `set` leaves the store as it
was (the `ValueError` fires before the lock body mutates anything). -/
def runSets (maxSize : ℕ) (dttl : ℤ) :
    List (ℚ × String × α × Option ℤ) → Store α → Store α
  | [], s => s
  | (t, k, v, ttl) :: rest, s =>
    match cacheSet t maxSize dttl s k v ttl with
    | .ok s2 => runSets maxSize dttl rest s2
    | .error _ => runSets maxSize dttl rest s

/-! ### `RateLimiter.is_allowed` (`server.py` lines 44-69).  State is one
client's timestamp list; the result is the decision and the new list. -/

/-- One `is_allowed` call: prune entries with `now - t >= window`, reject if
the pruned window is already at the limit, otherwise record `now`. -/
def isAllowed (limit : ℕ) (window : ℚ) (ts : List ℚ) (now : ℚ) :
    Bool × List ℚ :=
  let kept := ts.filter (fun t => now - t < window)
  if limit ≤ kept.length then (false, kept) else (true, kept ++ [now])

/-- A sequence of `is_allowed` calls at the given instants, collecting the
decisions and the final window. -/
def runCalls (limit : ℕ) (window : ℚ) : List ℚ → List ℚ → List Bool × List ℚ
  | [], s => ([], s)
  | t :: rest, s =>
    let r := isAllowed limit window s t
    let tail := runCalls limit window rest r.2
    (r.1 :: tail.1, tail.2)

/-! ### `HTTPClient._request` (`client.py` lines 116-183).  The environment
assigns to each attempt index what that attempt observes. -/

/-- What one HTTP attempt can observe. -/
inductive AttemptOutcome where
  | statusError (status : ℕ) (text : String)
  | transportError (msg : String)
  | invalidJson (msg : String)
  | success (body : Json)

/-- Is the outcome one the loop retries on a non-final attempt? -/
def AttemptOutcome.isRetriable : AttemptOutcome → Bool
  | .statusError _ _ => true
  | .transportError _ => true
  | _ => false

/-- The retry loop body, `attempt` being the current index and `remaining`
how many iterations are left (`remaining = 0` models loop exhaustion, where
Python would return `None`; unreachable for a positive retry count).

Both `raise ResponseError(...)` statements (bad JSON, line 157; empty body,
line 160) sit inside the `try:` block, so the `except Exception` handler on
line 180 catches them and re-raises a plain `APIError` immediately — they
are neither retried nor surfaced as `ResponseError`. -/
def requestGo (env : ℕ → AttemptOutcome) : ℕ → ℕ → Except PyErr Json
  | _, 0 => .ok .null
  | attempt, r + 1 =>
    match env attempt with
    | .success body =>
      if jsonTruthy body then .ok body
      else .error (.apiError "Unexpected error: Empty response from API")
    | .invalidJson m =>
      .error (.apiError ("Unexpected error: Invalid JSON response: " ++ m))
    | .statusError st tx =>
      if r = 0 then .error (.apiError ("HTTP " ++ toString st ++ ": " ++ tx))
      else requestGo env (attempt + 1) r
    | .transportError m =>
      if r = 0 then .error (.connectionError ("Request failed: " ++ m))
      else requestGo env (attempt + 1) r

/-- `_request` with the fixed `self._retry_count = 3` (line 73). -/
def pyRequest (env : ℕ → AttemptOutcome) : Except PyErr Json :=
  requestGo env 0 3

/-! ### `WaktuSolatServer.handle_request` (`server.py` lines 276-319) -/

/-- The `result` / `error` half of a JSON-RPC response dict. -/
inductive RpcBody where
  | result (payload : Json)
  | rpcError (code : ℤ) (message : String)

/-- A `{"jsonrpc": "2.0", "id": ..., result-or-error}` response; the id is
echoed from the request (`None` serialising to `null`). -/
structure RpcResponse where
  id : Json
  body : RpcBody

/-- `self.tools` key set (lines 81-85). -/
def toolNames : List String := ["get_prayer_times", "list_zones", "get_current_prayer"]

/-- `str(e)` for an exception, as interpolated into error messages. -/
def PyErr.text : PyErr → String
  | .apiError m => m
  | .validationError m => m
  | .responseError m => m
  | .connectionError m => m
  | .typeError => "object is not subscriptable"
  | .attributeError => "object has no attribute get"
  | .valueError m => m

/-- The `initialize` result payload (lines 282-290). -/
def initPayload : Json :=
  .obj [("name", .str "Malaysia Prayer Time MCP Server"),
        ("version", .str "0.2.0"),
        ("capabilities", .obj [])]

/-- `get_tools_list` (lines 236-274), with the same names, descriptions and
schema shapes as the source. -/
def toolsListPayload : Json :=
  let zoneSchema : Json :=
    .obj [("type", .str "object"),
          ("properties",
            .obj [("zone",
              .obj [("type", .str "string"),
                    ("description", .str "The zone code (e.g., SGR01, KUL01, etc.)")])]),
          ("required", .arr [.str "zone"])]
  .obj [("tools", .arr [
    .obj [("name", .str "get_prayer_times"),
          ("description", .str "Get prayer times for a specific zone in Malaysia"),
          ("inputSchema", zoneSchema)],
    .obj [("name", .str "list_zones"),
          ("description", .str "List all available prayer time zones in Malaysia"),
          ("inputSchema", .obj [("type", .str "object"), ("properties", .obj [])])],
    .obj [("name", .str "get_current_prayer"),
          ("description", .str "Get the current prayer time status for a specific zone"),
          ("inputSchema", zoneSchema)]])]

/-- Is the Python value hashable?  `None`, bools, ints and strings are;
lists and dicts are not, and using one as a dict-membership key raises
`TypeError: unhashable type`. -/
def Json.hashable : Json → Bool
  | .arr _ => false
  | .obj _ => false
  | _ => true

/-- `handle_request`.  The three tool handlers are passed in as `handler`
(they may raise; `callTool` wraps their exceptions).  The request is a
parsed JSON object.  `request.get("params", {})` defaults only when the
key is absent, so a present non-object `params` value reaches
`params.get("name")` and raises `AttributeError`; and the membership test
`tool_name in self.tools` (`server.py` line 296) raises `TypeError` when
`tool_name` is an unhashable list or dict, while hashable non-string
names are simply not found. -/
def handleRequest (handler : String → Json → Except PyErr Json)
    (req : List (String × Json)) : Except PyErr RpcResponse :=
  let method := jgetD req "method" .null
  let rid := jgetD req "id" .null
  if jeqStr "initialize" method then .ok ⟨rid, .result initPayload⟩
  else if jeqStr "listTools" method then .ok ⟨rid, .result toolsListPayload⟩
  else if jeqStr "callTool" method then
    let params := (jfindVal req "params").getD (.obj [])
    match params with
    | .obj pfs =>
      let toolName := jgetD pfs "name" .null
      let toolArgs := (jfindVal pfs "arguments").getD (.obj [])
      match toolName with
      | .str s =>
        if s ∈ toolNames then
          match handler s toolArgs with
          | .ok r => .ok ⟨rid, .result r⟩
          | .error e =>
            .ok ⟨rid, .rpcError (-32603) ("Tool execution failed: " ++ e.text)⟩
        else .ok ⟨rid, .rpcError (-32601) ("Unknown tool: " ++ s)⟩
      | .arr _ => .error .typeError
      | .obj _ => .error .typeError
      | j => .ok ⟨rid, .rpcError (-32601) ("Unknown tool: " ++ pyStr j)⟩
    | _ => .error .attributeError
  else .ok ⟨rid, .rpcError (-32601) ("Unknown method: " ++ pyStr method)⟩

/-! ### Zones: `HTTPClient.get_zones` (`client.py` lines 325-386), the
`Zone` model (`models.py` lines 121-157) and
`WaktuSolatServer.handle_list_zones` (`server.py` lines 169-196). -/

/-- A validated `Zone` record. -/
structure Zone where
  name : String
  code : String
  negeri : String
deriving Repr, DecidableEq

/-- Python `str.strip()` whitespace (ASCII portion). -/
def isPySpace (c : Char) : Bool :=
  c = ' ' || c = '\t' || c = '\n' || c = '\r' || c = '\x0B' || c = '\x0C'

/-- Python `s.strip()`. -/
def pyStrip (s : String) : String :=
  ⟨((s.toList.dropWhile isPySpace).reverse.dropWhile isPySpace).reverse⟩

/-- `Zone.model_validate` (`models.py` lines 135-150): every field is
stripped and must be non-empty; the code must match the zone regex.
`none` is the `ValueError` that `get_zones` catches and skips. -/
def mkZone (name code negeri : String) : Option Zone :=
  let n := pyStrip name
  let c := pyStrip code
  let g := pyStrip negeri
  if n ≠ "" && c ≠ "" && g ≠ "" && zoneMatch c then some ⟨n, c, g⟩ else none

/-- Required keys of the zones endpoint items (`client.py` line 346). -/
def zoneKeys : List String := ["daerah", "jakimCode", "negeri"]

/-- One iteration of the zones loop (`client.py` lines 345-380). -/
def processZoneItem (item : Json) : Except PyErr (Option Zone) :=
  match allContains item zoneKeys with
  | .error e => .error e
  | .ok false => .ok none
  | .ok true =>
    match item with
    | .obj ifs =>
      let d := jgetD ifs "daerah" .null
      let j := jgetD ifs "jakimCode" .null
      let g := jgetD ifs "negeri" .null
      if ¬ jsonTruthy d || ¬ jsonTruthy j || ¬ jsonTruthy g then .ok none
      else
        match d, j, g with
        | .str ds, .str js, .str gs =>
          let ds2 := pyStrip ds
          let js2 := pyStrip js
          let gs2 := pyStrip gs
          if ds2 = "" || js2 = "" || gs2 = "" then .ok none
          else .ok (mkZone ds2 js2 gs2)
        | _, _, _ => .error .attributeError
    | _ => .error .typeError

/-- The whole zones loop, left to right. -/
def processZoneItems : List Json → Except PyErr (List Zone)
  | [] => .ok []
  | item :: rest =>
    match processZoneItem item with
    | .error e => .error e
    | .ok r =>
      match processZoneItems rest with
      | .error e => .error e
      | .ok tail => .ok (match r with | some z => z :: tail | none => tail)

/-- `HTTPClient.get_zones()` given the decoded payload. -/
def getZones (payload : Json) : Except PyErr (List Zone) :=
  match payload with
  | .arr items =>
    match processZoneItems items with
    | .error e => .error e
    | .ok zs =>
      if zs.isEmpty then
        .error (.responseError "Failed to parse any valid zones from API response")
      else .ok zs
  | _ => .error (.responseError "Invalid zones data format in response")

/-- Lexicographic `≤` on character lists by code point — Python string
comparison. -/
def clLe : List Char → List Char → Bool
  | [], _ => true
  | _ :: _, [] => false
  | a :: xs, b :: ys => if a = b then clLe xs ys else decide (a < b)

/-- Python tuple comparison `(z.negeri, z.code) ≤ (w.negeri, w.code)`,
the key order of `sorted(zones, key=lambda z: (z.negeri, z.code))`. -/
def zoneKeyLe (a b : Zone) : Bool :=
  if a.negeri = b.negeri then clLe a.code.toList b.code.toList
  else clLe a.negeri.toList b.negeri.toList

/-- `sorted(zones, key=lambda z: (z.negeri, z.code))` — Python's sort is a
stable mergesort. -/
def sortZones (zs : List Zone) : List Zone := zs.mergeSort zoneKeyLe

/-- `f"{zone.code}: {zone.name} ({zone.negeri})"`. -/
def fmtZone (z : Zone) : String :=
  z.code ++ ": " ++ z.name ++ " (" ++ z.negeri ++ ")"

/-- Python `"\n".join(...)`. -/
def joinNL : List String → String
  | [] => ""
  | [x] => x
  | x :: rest => x ++ "\n" ++ joinNL rest

/-- `handle_list_zones` (`server.py` lines 186-189), reduced to the text it
puts in the response envelope. -/
def handleListZones (zs : List Zone) : String :=
  joinNL ((sortZones zs).map fmtZone)

/-- Split a character list at newlines (inverse view of `joinNL`). -/
def splitNLCh : List Char → List (List Char)
  | [] => [[]]
  | c :: rest =>
    if c = '\n' then [] :: splitNLCh rest
    else
      match splitNLCh rest with
      | [] => [[c]]
      | l :: ls => (c :: l) :: ls

/-- The lines of a string. -/
def pyLines (s : String) : List String := (splitNLCh s.toList).map (fun cs => ⟨cs⟩)

/-- No newline occurs in the string. -/
def nlFree (s : String) : Bool := ¬ s.toList.any (fun c => c = '\n')

/-- All three fields of a zone are newline-free. -/
def Zone.nlFreeFields (z : Zone) : Bool :=
  nlFree z.name && nlFree z.code && nlFree z.negeri

/-! ## Helper lemmas: cache -/

/-- Every binding with key `k` after `d[k] = e` is exactly `(k, e)`. -/
theorem mem_dictSet_key {α : Type} {s : Store α} {k : String} {e : CEntry α} :
    ∀ kv ∈ dictSet s k e, kv.1 = k → kv = (k, e) := by
  intro kv hmem hk
  unfold dictSet at hmem
  by_cases hany : s.any (fun kv => kv.1 = k) = true
  · rw [if_pos hany] at hmem
    obtain ⟨kv2, _, hf⟩ := List.mem_map.mp hmem
    by_cases h2 : kv2.1 = k
    · rw [if_pos h2] at hf; exact hf.symm
    · rw [if_neg h2] at hf; subst hf; exact absurd hk h2
  · rw [if_neg hany] at hmem
    rcases List.mem_append.mp hmem with h | h
    · exact absurd (List.any_eq_true.mpr ⟨kv, h, by simp [hk]⟩) hany
    · simpa using h

/-- The just-written binding is in the store. -/
theorem dictSet_mem {α : Type} (s : Store α) (k : String) (e : CEntry α) :
    (k, e) ∈ dictSet s k e := by
  unfold dictSet
  by_cases hany : s.any (fun kv => kv.1 = k) = true
  · rw [if_pos hany]
    obtain ⟨kv2, hkv2, hp⟩ := List.any_eq_true.mp hany
    refine List.mem_map.mpr ⟨kv2, hkv2, ?_⟩
    rw [if_pos (by simpa using hp)]
  · rw [if_neg hany]
    exact List.mem_append.mpr (Or.inr (List.mem_singleton.mpr rfl))

/-- Dict assignment grows the store by at most one binding. -/
theorem dictSet_length {α : Type} (s : Store α) (k : String) (e : CEntry α) :
    (dictSet s k e).length ≤ s.length + 1 := by
  unfold dictSet
  by_cases hany : s.any (fun kv => kv.1 = k) = true
  · rw [if_pos hany]; simp
  · rw [if_neg hany]; simp

/-- Cleaning never grows the store. -/
theorem cleanExpired_length_le {α : Type} (now : ℚ) (s : Store α) :
    (cleanExpired now s).length ≤ s.length :=
  List.length_filter_le _ s

/-- Below capacity, `_ensure_capacity` does nothing. -/
theorem ensureCapacity_of_lt {α : Type} {ms : ℕ} {s : Store α}
    (h : s.length < ms) : ensureCapacity ms s = s := by
  unfold ensureCapacity
  rw [if_neg (by omega)]

/-- At or above capacity, `_ensure_capacity` strictly shrinks a non-empty
store (`max_size ≥ 1`). -/
theorem ensureCapacity_length_lt {α : Type} {ms : ℕ} {s : Store α}
    (h1 : 1 ≤ ms) (h : ms ≤ s.length) :
    (ensureCapacity ms s).length < s.length := by
  unfold ensureCapacity
  rw [if_pos h]
  set sorted := s.mergeSort (fun a b => decide (a.2.expiresAt ≤ b.2.expiresAt)) with hsorted
  have hslen : sorted.length = s.length := (List.mergeSort_perm s _).length_eq
  have hpos : 0 < sorted.length := by omega
  obtain ⟨v0, t0, hv0⟩ : ∃ v0 t0, sorted = v0 :: t0 := by
    cases hs : sorted with
    | nil => rw [hs] at hpos; simp at hpos
    | cons a t => exact ⟨a, t, rfl⟩
  have hr : 1 ≤ numToRemove ms := le_max_left 1 _
  obtain ⟨r2, hr2⟩ : ∃ r2, numToRemove ms = r2 + 1 := ⟨numToRemove ms - 1, by omega⟩
  have hv0take : v0 ∈ sorted.take (numToRemove ms) := by
    rw [hv0, hr2, List.take_succ_cons]; exact List.mem_cons_self _ _
  have hv0mem : v0 ∈ s := (List.mergeSort_perm s _).subset (hv0 ▸ List.mem_cons_self _ _)
  have hkey : v0.1 ∈ (sorted.take (numToRemove ms)).map Prod.fst :=
    List.mem_map.mpr ⟨v0, hv0take, rfl⟩
  refine List.length_filter_lt_length_iff_exists.mpr ⟨v0, hv0mem, ?_⟩
  simp only [decide_eq_true_eq, Decidable.not_not]
  exact List.elem_iff.mpr hkey

/-- Unfolding of a successful `cacheSet` with an explicit positive TTL. -/
theorem cacheSet_ok_eq {α : Type} {store : Store α} {k : String} {v : α}
    {T : ℤ} {t0 : ℚ} {ms : ℕ} {dttl : ℤ} {s1 : Store α}
    (hT : 0 < T) (hok : cacheSet t0 ms dttl store k v (some T) = .ok s1) :
    s1 = dictSet (ensureCapacity ms (cleanExpired t0 store)) k ⟨v, t0 + (T : ℚ)⟩ := by
  unfold cacheSet at hok
  rw [if_neg (by simp only [Option.isSome_some, Option.getD_some, true_and]; omega)] at hok
  simp only [Option.getD_some] at hok
  injection hok with h
  exact h.symm

/-- **C3.** (cache round-trip) After `set(k, v, ttl=T)` at time `t0` with
`T > 0`, `get(k)` at any time strictly before `t0 + T` returns `v`, and at
any time at or after `t0 + T` returns absent. -/
theorem c3_cache_roundtrip {α : Type} (store : Store α) (k : String) (v : α)
    (T : ℤ) (t0 t : ℚ) (ms : ℕ) (dttl : ℤ) (s1 : Store α)
    (hT : 0 < T) (hok : cacheSet t0 ms dttl store k v (some T) = .ok s1) :
    (cacheGet t s1 k).1 = if t < t0 + (T : ℚ) then some v else none := by
  have hs1 := cacheSet_ok_eq hT hok
  have hkey : ∀ kv ∈ s1, kv.1 = k → kv = (k, ⟨v, t0 + (T : ℚ)⟩) := by
    rw [hs1]; exact mem_dictSet_key
  have hmem : (k, (⟨v, t0 + (T : ℚ)⟩ : CEntry α)) ∈ s1 := by
    rw [hs1]; exact dictSet_mem _ _ _
  unfold cacheGet
  by_cases hlt : t < t0 + (T : ℚ)
  · have hclean : (k, (⟨v, t0 + (T : ℚ)⟩ : CEntry α)) ∈ cleanExpired t s1 := by
      unfold cleanExpired
      refine List.mem_filter.mpr ⟨hmem, ?_⟩
      exact decide_eq_true (not_le.mpr hlt)
    have hfind : (List.find? (fun kv => kv.1 = k) (cleanExpired t s1)).isSome := by
      rw [List.find?_isSome]
      exact ⟨_, hclean, by simp⟩
    obtain ⟨kv0, hkv0⟩ := Option.isSome_iff_exists.mp hfind
    have hkv0mem : kv0 ∈ cleanExpired t s1 := List.mem_of_find?_eq_some hkv0
    have hkv0key : kv0.1 = k := by simpa using List.find?_some hkv0
    have hkv0eq : kv0 = (k, ⟨v, t0 + (T : ℚ)⟩) :=
      hkey kv0 (List.mem_filter.mp hkv0mem).1 hkv0key
    rw [if_pos hlt]
    simp only [hkv0, hkv0eq]
    rw [if_neg (not_le.mpr hlt)]
  · have hfind : List.find? (fun kv => kv.1 = k) (cleanExpired t s1) = none := by
      rw [List.find?_eq_none]
      intro kv hkvmem
      simp only [decide_eq_true_eq]
      intro hkvkey
      have hkv : kv = (k, ⟨v, t0 + (T : ℚ)⟩) :=
        hkey kv (List.mem_filter.mp hkvmem).1 hkvkey
      have hp := (List.mem_filter.mp hkvmem).2
      rw [hkv] at hp
      simp only [decide_eq_true_eq, not_le] at hp
      exact hlt hp
    rw [if_neg hlt]
    simp only [hfind]

/-- Witness for C3 at a concrete instance: `set("k", 0, ttl=5)` at time 0
into an empty cache; `get` at time 3 hits, `get` at time 7 misses. -/
theorem c3_cache_roundtrip_witness :
    (cacheGet 3 [("k", ⟨0, 0 + ((5 : ℤ) : ℚ)⟩)] "k").1
        = (if (3 : ℚ) < 0 + ((5 : ℤ) : ℚ) then some 0 else none)
    ∧ (cacheGet 7 [("k", ⟨0, 0 + ((5 : ℤ) : ℚ)⟩)] "k").1
        = (if (7 : ℚ) < 0 + ((5 : ℤ) : ℚ) then some (0 : ℕ) else none) :=
  ⟨c3_cache_roundtrip ([] : Store ℕ) "k" 0 5 0 3 10 60 _ (by decide) rfl,
   c3_cache_roundtrip ([] : Store ℕ) "k" 0 5 0 7 10 60 _ (by decide) rfl⟩

/-- A successful `set` keeps a store that was within capacity within
capacity, provided `max_size ≥ 1` (which the configuration guarantees:
`CacheConfig.__post_init__` rejects `max_size < 1`). -/
theorem cacheSet_length {α : Type} {ms : ℕ} {dttl : ℤ} {s s2 : Store α}
    {t : ℚ} {k : String} {v : α} {ttl : Option ℤ}
    (h1 : 1 ≤ ms) (hlen : s.length ≤ ms)
    (hok : cacheSet t ms dttl s k v ttl = .ok s2) : s2.length ≤ ms := by
  unfold cacheSet at hok
  by_cases hbad : ttl.isSome ∧ ttl.getD 0 ≤ 0
  · rw [if_pos hbad] at hok; exact absurd hok (by simp)
  · rw [if_neg hbad] at hok
    injection hok with h
    subst h
    have hclen : (cleanExpired t s).length ≤ ms :=
      le_trans (cleanExpired_length_le t s) hlen
    by_cases hfull : ms ≤ (cleanExpired t s).length
    · have hshrink := ensureCapacity_length_lt (α := α) h1 hfull
      have := dictSet_length (ensureCapacity ms (cleanExpired t s)) k
        ⟨v, t + ((ttl.getD dttl : ℤ) : ℚ)⟩
      omega
    · rw [ensureCapacity_of_lt (by omega)]
      have := dictSet_length (cleanExpired t s) k
        ⟨v, t + ((ttl.getD dttl : ℤ) : ℚ)⟩
      omega

/-- **C4.** (cache capacity) With a configured `max_size ≥ 1`:
any sequence of `set` operations starting from the empty store never leaves
more than `max_size` entries; a single successful `set` on a
within-capacity store stays within capacity and always leaves the
just-inserted binding present (the capacity eviction runs before the
insertion, so it can never select the new entry); and eviction does
nothing below capacity. -/
theorem c4_cache_capacity {α : Type} (ms : ℕ) (dttl : ℤ) (h1 : 1 ≤ ms) :
    (∀ ops : List (ℚ × String × α × Option ℤ),
      (runSets ms dttl ops ([] : Store α)).length ≤ ms)
    ∧ (∀ (s s2 : Store α) (t : ℚ) (k : String) (v : α) (ttl : Option ℤ),
        s.length ≤ ms → cacheSet t ms dttl s k v ttl = .ok s2 →
        s2.length ≤ ms ∧ (k, ⟨v, t + ((ttl.getD dttl : ℤ) : ℚ)⟩) ∈ s2)
    ∧ (∀ s : Store α, s.length < ms → ensureCapacity ms s = s) := by
  have hstep : ∀ (s s2 : Store α) (t : ℚ) (k : String) (v : α) (ttl : Option ℤ),
      s.length ≤ ms → cacheSet t ms dttl s k v ttl = .ok s2 →
      s2.length ≤ ms ∧ (k, ⟨v, t + ((ttl.getD dttl : ℤ) : ℚ)⟩) ∈ s2 := by
    intro s s2 t k v ttl hlen hok
    refine ⟨cacheSet_length h1 hlen hok, ?_⟩
    unfold cacheSet at hok
    by_cases hbad : ttl.isSome ∧ ttl.getD 0 ≤ 0
    · rw [if_pos hbad] at hok; exact absurd hok (by simp)
    · rw [if_neg hbad] at hok
      injection hok with h
      subst h
      exact dictSet_mem _ _ _
  refine ⟨?_, hstep, fun s h => ensureCapacity_of_lt h⟩
  have hrun : ∀ (ops : List (ℚ × String × α × Option ℤ)) (s : Store α),
      s.length ≤ ms → (runSets ms dttl ops s).length ≤ ms := by
    intro ops
    induction ops with
    | nil => intro s h; exact h
    | cons op rest ih =>
      intro s h
      obtain ⟨t, k, v, ttl⟩ := op
      unfold runSets
      cases hset : cacheSet t ms dttl s k v ttl with
      | ok s2 => exact ih s2 (cacheSet_length h1 h hset)
      | error e => exact ih s h
  exact fun ops => hrun ops [] (by simp)

/-- Witness for C4: ten inserts of distinct keys into an empty cache with
`max_size = 3` stay within three entries. -/
theorem c4_cache_capacity_witness :
    (runSets 3 60 [(0, "a", 0, none), (1, "b", 0, none), (2, "c", 0, none),
                   (3, "d", 0, none), (4, "e", 0, none)] ([] : Store ℕ)).length ≤ 3 :=
  (c4_cache_capacity 3 60 (by decide)).1 _

/-! ## Helper lemmas: rate limiter -/

/-- A run of calls that all fall inside one window of each other (and of
any pre-existing window content): the `i`-th call is allowed exactly when
the window is not yet at the limit, and the final window holds the first
`N - s.length` call instants appended to `s`. -/
theorem runCalls_inWindow (N : ℕ) :
    ∀ (times s : List ℚ),
      (∀ u ∈ times, ∀ x ∈ s, u - x < 60) →
      (∀ u ∈ times, ∀ x ∈ times, u - x < 60) →
      runCalls N 60 times s =
        ((List.range times.length).map (fun i => decide (s.length + i < N)),
         s ++ times.take (N - s.length)) := by
  intro times
  induction times with
  | nil => intro s _ _; simp [runCalls]
  | cons t rest ih =>
    intro s hST hTT
    have hkept : s.filter (fun x => decide (t - x < 60)) = s :=
      List.filter_eq_self.mpr (fun x hx =>
        decide_eq_true (hST t (List.mem_cons_self _ _) x hx))
    unfold runCalls
    unfold isAllowed
    simp only [hkept]
    by_cases hcap : N ≤ s.length
    · rw [if_pos hcap]
      have hrec := ih s (fun u hu x hx => hST u (List.mem_cons_of_mem _ hu) x hx)
        (fun u hu x hx => hTT u (List.mem_cons_of_mem _ hu) x (List.mem_cons_of_mem _ hx))
      rw [hrec]
      have htake : N - s.length = 0 := by omega
      simp only [Prod.mk.injEq]
      refine ⟨?_, by simp [htake]⟩
      rw [List.length_cons, List.range_succ_eq_map]
      simp only [List.map_cons, List.map_map]
      congr 1
      · exact (decide_eq_false (by omega : ¬ s.length + 0 < N)).symm
      · apply List.map_congr_left
        intro i _
        refine decide_eq_decide.mpr ?_
        omega
    · rw [if_neg hcap]
      have hST2 : ∀ u ∈ rest, ∀ x ∈ s ++ [t], u - x < 60 := by
        intro u hu x hx
        rcases List.mem_append.mp hx with h | h
        · exact hST u (List.mem_cons_of_mem _ hu) x h
        · rw [List.mem_singleton.mp h]
          exact hTT u (List.mem_cons_of_mem _ hu) t (List.mem_cons_self _ _)
      have hTT2 : ∀ u ∈ rest, ∀ x ∈ rest, u - x < 60 := fun u hu x hx =>
        hTT u (List.mem_cons_of_mem _ hu) x (List.mem_cons_of_mem _ hx)
      rw [ih (s ++ [t]) hST2 hTT2]
      have hlen : (s ++ [t]).length = s.length + 1 := by simp
      simp only [Prod.mk.injEq]
      constructor
      · rw [List.length_cons, List.range_succ_eq_map]
        simp only [List.map_cons, List.map_map]
        congr 1
        · exact (decide_eq_true (by omega : s.length + 0 < N)).symm
        · apply List.map_congr_left
          intro i _
          refine decide_eq_decide.mpr ?_
          rw [hlen]
          omega
      · obtain ⟨d, hd⟩ : ∃ d, N - s.length = d + 1 := ⟨N - s.length - 1, by omega⟩
        rw [hlen, hd, List.take_succ_cons]
        have h2 : N - (s.length + 1) = d := by omega
        rw [h2]
        simp

/-- **C5.** (rate limiter window) With per-minute limit `N` and the fixed
60-unit window: (a) of `N + 1` calls from one client that all lie within a
single window, the first `N` are allowed and the last is rejected; (b) once
the window slides past the oldest recorded instant, exactly one further
call becomes allowed: a full window `x :: xs` with only `x` aged out admits
one call at `u` and rejects an immediate second call at `u`. -/
theorem c5_rate_limit_window (N : ℕ) :
    (∀ times : List ℚ, times.length = N + 1 →
      (∀ u ∈ times, ∀ x ∈ times, u - x < 60) →
      (runCalls N 60 times []).1 = List.replicate N true ++ [false])
    ∧ (∀ (x : ℚ) (xs : List ℚ) (u : ℚ), (x :: xs).length = N →
        60 ≤ u - x → (∀ t ∈ xs, u - t < 60) →
        isAllowed N 60 (x :: xs) u = (true, xs ++ [u])
        ∧ isAllowed N 60 (xs ++ [u]) u = (false, xs ++ [u])) := by
  constructor
  · intro times hlen hTT
    rw [runCalls_inWindow N times [] (by intro u _ x hx; simp at hx) hTT]
    simp only [List.length_nil, hlen]
    rw [List.range_succ]
    rw [List.map_append]
    congr 1
    · apply List.eq_replicate_iff.mpr
      refine ⟨by simp, ?_⟩
      intro b hb
      obtain ⟨i, hi, hib⟩ := List.mem_map.mp hb
      rw [← hib]
      exact decide_eq_true (by simpa using List.mem_range.mp hi)
    · simp
  · intro x xs u hlen hold hnew
    have hx1 : xs.length + 1 = N := by simpa using hlen
    have hkept : (x :: xs).filter (fun t => decide (u - t < 60)) = xs := by
      rw [List.filter_cons]
      rw [if_neg (by simp only [decide_eq_true_eq, not_lt]; linarith)]
      exact List.filter_eq_self.mpr (fun t ht => decide_eq_true (hnew t ht))
    constructor
    · unfold isAllowed
      simp only [hkept]
      rw [if_neg (by omega)]
    · unfold isAllowed
      have hkept2 : (xs ++ [u]).filter (fun t => decide (u - t < 60)) = xs ++ [u] :=
        List.filter_eq_self.mpr (by
          intro t ht
          rcases List.mem_append.mp ht with h | h
          · exact decide_eq_true (hnew t h)
          · rw [List.mem_singleton.mp h]
            exact decide_eq_true (by norm_num))
      simp only [hkept2]
      rw [if_pos (by simp; omega)]

/-- Witness for C5: 61 calls at instant 0 — the first 60 allowed, the 61st
rejected; then with a full window `0 :: replicate 59 1`, one call at 60 is
allowed and its immediate repeat is rejected. -/
theorem c5_rate_limit_window_witness :
    ((runCalls 60 60 (List.replicate 61 (0 : ℚ)) []).1
        = List.replicate 60 true ++ [false])
    ∧ (isAllowed 60 60 ((0 : ℚ) :: List.replicate 59 (1 : ℚ)) 60
        = (true, List.replicate 59 (1 : ℚ) ++ [60])
      ∧ isAllowed 60 60 (List.replicate 59 (1 : ℚ) ++ [60]) 60
        = (false, List.replicate 59 (1 : ℚ) ++ [60])) :=
  ⟨(c5_rate_limit_window 60).1 (List.replicate 61 0) (by simp)
      (by
        intro u hu x hx
        rw [List.eq_of_mem_replicate hu, List.eq_of_mem_replicate hx]
        norm_num),
   (c5_rate_limit_window 60).2 0 (List.replicate 59 1) 60 (by simp)
      (by norm_num)
      (by
        intro t ht
        rw [List.eq_of_mem_replicate ht]
        norm_num)⟩

/-- **C9.** (rejections do not consume capacity) A rejected `is_allowed`
call leaves the client's window equal to the pruned previous window — it
appends nothing, so the new window is a sublist of the old one and a burst
of rejected requests never extends the time until capacity frees up. -/
theorem c9_reject_no_append (N : ℕ) (w : ℚ) (ts : List ℚ) (now : ℚ)
    (hrej : (isAllowed N w ts now).1 = false) :
    (isAllowed N w ts now).2 = ts.filter (fun t => decide (now - t < w))
    ∧ (isAllowed N w ts now).2.Sublist ts := by
  unfold isAllowed at hrej ⊢
  by_cases hcap : N ≤ (ts.filter (fun t => decide (now - t < w))).length
  · rw [if_pos hcap]
    exact ⟨rfl, List.filter_sublist ts⟩
  · rw [if_neg hcap] at hrej
    simp at hrej

/-- Witness for C9: with limit 1 and one fresh timestamp, a call is
rejected and the window stays `[0]`. -/
theorem c9_reject_no_append_witness :
    (isAllowed 1 60 [(0 : ℚ)] 0).2 = [(0 : ℚ)].filter (fun t => decide ((0 : ℚ) - t < 60))
    ∧ (isAllowed 1 60 [(0 : ℚ)] 0).2.Sublist [(0 : ℚ)] :=
  c9_reject_no_append 1 60 [0] 0 (by norm_num [isAllowed])

/-! ## `_request` retry behaviour -/

/-- `requestGo` only consults attempt indices in `[attempt, attempt + r)`. -/
theorem requestGo_congr (env env2 : ℕ → AttemptOutcome) :
    ∀ (r attempt : ℕ), (∀ i, attempt ≤ i → i < attempt + r → env i = env2 i) →
      requestGo env attempt r = requestGo env2 attempt r := by
  intro r
  induction r with
  | zero => intro attempt _; rfl
  | succ r ih =>
    intro attempt h
    unfold requestGo
    rw [← h attempt (le_refl _) (by omega)]
    cases env attempt with
    | success body => rfl
    | invalidJson m => rfl
    | statusError st tx =>
      dsimp only
      by_cases hr : r = 0
      · rw [if_pos hr, if_pos hr]
      · rw [if_neg hr, if_neg hr]
        exact ih (attempt + 1) (fun i h1 h2 => h i (by omega) (by omega))
    | transportError m =>
      dsimp only
      by_cases hr : r = 0
      · rw [if_pos hr, if_pos hr]
      · rw [if_neg hr, if_neg hr]
        exact ih (attempt + 1) (fun i h1 h2 => h i (by omega) (by omega))

/-- Every error produced by the retry loop is in the `APIError` family. -/
theorem requestGo_family (env : ℕ → AttemptOutcome) :
    ∀ (r attempt : ℕ) (e : PyErr), requestGo env attempt r = .error e →
      e.isAPIFamily = true := by
  intro r
  induction r with
  | zero => intro attempt e h; exact absurd h (by simp [requestGo])
  | succ r ih =>
    intro attempt e h
    unfold requestGo at h
    cases henv : env attempt with
    | success body =>
      rw [henv] at h
      dsimp only at h
      by_cases ht : jsonTruthy body = true
      · rw [if_pos ht] at h; exact absurd h (by simp)
      · rw [if_neg ht] at h
        injection h with h2
        rw [← h2]; rfl
    | invalidJson m =>
      rw [henv] at h
      injection h with h2
      rw [← h2]; rfl
    | statusError st tx =>
      rw [henv] at h
      dsimp only at h
      by_cases hr : r = 0
      · rw [if_pos hr] at h
        injection h with h2
        rw [← h2]; rfl
      · rw [if_neg hr] at h
        exact ih (attempt + 1) e h
    | transportError m =>
      rw [henv] at h
      dsimp only at h
      by_cases hr : r = 0
      · rw [if_pos hr] at h
        injection h with h2
        rw [← h2]; rfl
      · rw [if_neg hr] at h
        exact ih (attempt + 1) e h

/-- **C6 (amended).** (retry policy and error taxonomy, as the code
implements it) Each HTTP request consults at most 3 attempts.  When the
first two attempts fail retryably, a non-2xx status on the final attempt
raises the plain base `APIError`, and a transport failure on the final
attempt raises the `ConnectionError` variant.  A JSON-decoding failure or
an empty response body raises the plain base `APIError` immediately on
whatever attempt it occurs — the internally raised `ResponseError` is
caught by the `except Exception` catch-all and re-wrapped — and every
error raised belongs to the `APIError` family. -/
theorem c6_retry_taxonomy :
    (∀ env env2 : ℕ → AttemptOutcome, (∀ i, i < 3 → env i = env2 i) →
      pyRequest env = pyRequest env2)
    ∧ (∀ env : ℕ → AttemptOutcome,
        (env 0).isRetriable = true → (env 1).isRetriable = true →
        (∀ st tx, env 2 = .statusError st tx →
          pyRequest env = .error (.apiError ("HTTP " ++ toString st ++ ": " ++ tx)))
        ∧ (∀ m, env 2 = .transportError m →
          pyRequest env = .error (.connectionError ("Request failed: " ++ m))))
    ∧ (∀ (env : ℕ → AttemptOutcome) (i : ℕ), i < 3 →
        (∀ j, j < i → (env j).isRetriable = true) →
        (∀ m, env i = .invalidJson m →
          pyRequest env = .error (.apiError ("Unexpected error: Invalid JSON response: " ++ m)))
        ∧ (∀ body, env i = .success body → jsonTruthy body = false →
          pyRequest env = .error (.apiError "Unexpected error: Empty response from API")))
    ∧ (∀ (env : ℕ → AttemptOutcome) (e : PyErr),
        pyRequest env = .error e → e.isAPIFamily = true) := by
  have hstep : ∀ (env : ℕ → AttemptOutcome) (attempt r : ℕ),
      (env attempt).isRetriable = true → r ≠ 0 →
      requestGo env attempt (r + 1) = requestGo env (attempt + 1) r := by
    intro env attempt r hret hr
    unfold requestGo
    cases henv : env attempt with
    | success body => rw [henv] at hret; exact absurd hret (by simp [AttemptOutcome.isRetriable])
    | invalidJson m => rw [henv] at hret; exact absurd hret (by simp [AttemptOutcome.isRetriable])
    | statusError st tx =>
      dsimp only
      rw [if_neg hr]
      exact requestGo.eq_def env (attempt + 1) r
    | transportError m =>
      dsimp only
      rw [if_neg hr]
      exact requestGo.eq_def env (attempt + 1) r
  refine ⟨?_, ?_, ?_, ?_⟩
  · intro env env2 h
    exact requestGo_congr env env2 3 0 (fun i h1 h2 => h i (by omega))
  · intro env h0 h1
    have hred : pyRequest env = requestGo env 2 1 := by
      unfold pyRequest
      rw [hstep env 0 2 h0 (by omega), hstep env 1 1 h1 (by omega)]
    constructor
    · intro st tx h2
      rw [hred]
      unfold requestGo
      rw [h2]
      simp
    · intro m h2
      rw [hred]
      unfold requestGo
      rw [h2]
      simp
  · intro env i hi hret
    have hred : pyRequest env = requestGo env i (3 - i) := by
      unfold pyRequest
      interval_cases i
      · rfl
      · rw [hstep env 0 2 (hret 0 (by omega)) (by omega)]
      · rw [hstep env 0 2 (hret 0 (by omega)) (by omega),
           hstep env 1 1 (hret 1 (by omega)) (by omega)]
    have h3 : ∃ r, 3 - i = r + 1 := ⟨2 - i, by omega⟩
    obtain ⟨r, hr⟩ := h3
    constructor
    · intro m h2
      rw [hred, hr]
      unfold requestGo
      rw [h2]
    · intro body h2 hfalse
      rw [hred, hr]
      unfold requestGo
      rw [h2]
      dsimp only
      rw [if_neg (by rw [hfalse]; simp)]
  · intro env e h
    exact requestGo_family env 3 0 e h

/-- Witness for C6 at concrete environments: two retriable failures then a
final status failure yield the base `APIError`; a final transport failure
yields `ConnectionError`. -/
theorem c6_retry_taxonomy_witness :
    pyRequest (fun i => if i = 2 then .statusError 500 "boom" else .transportError "t")
      = .error (.apiError ("HTTP " ++ toString 500 ++ ": " ++ "boom"))
    ∧ pyRequest (fun _ => .transportError "down")
      = .error (.connectionError ("Request failed: " ++ "down")) :=
  ⟨((c6_retry_taxonomy.2.1 (fun i => if i = 2 then .statusError 500 "boom" else .transportError "t")
      rfl rfl).1 500 "boom" rfl),
   ((c6_retry_taxonomy.2.1 (fun _ => .transportError "down")
      rfl rfl).2 "down" rfl)⟩

/-- **C6 counterexample.** (claim as stated is false) A JSON-decoding
failure on the very first attempt — with both later attempts able to
succeed — aborts immediately and raises the plain base `APIError`, not the
`ResponseError` ("response-format") variant, and not on the final attempt. -/
theorem c6_claim_counterexample :
    pyRequest (fun i => if i = 0 then .invalidJson "boom" else .success (.arr [.int 1]))
      = .error (.apiError "Unexpected error: Invalid JSON response: boom")
    ∧ (PyErr.apiError "Unexpected error: Invalid JSON response: boom").isResponseError
        = false := by
  exact ⟨rfl, rfl⟩

/-! ## `handle_request` -/

/-- **C7 (amended).** `handle_request` returns (never raises) a JSON-RPC
response echoing the request id for every request object whose `params`
value — consulted only for `callTool` — is absent or a JSON object whose
`name` value is hashable (not a JSON array or object).  A `callTool`
request carrying a present non-object `params` raises `AttributeError`,
and one whose `name` is an unhashable array or object raises `TypeError`
at the `tool_name in self.tools` membership test — both caught only by
the outer run loop, which prints a generic error without the id.  Unknown
methods and unknown (hashable) tool names yield a structured `-32601`
error whose message embeds the offending method or tool name. -/
theorem c7_dispatch_total (handler : String → Json → Except PyErr Json)
    (req : List (String × Json)) :
    ((jeqStr "callTool" (jgetD req "method" .null) = true →
        ∃ pfs, (jfindVal req "params").getD (.obj []) = .obj pfs
          ∧ (jgetD pfs "name" .null).hashable = true) →
      ∃ resp, handleRequest handler req = .ok resp
        ∧ resp.id = jgetD req "id" .null)
    ∧ (jeqStr "initialize" (jgetD req "method" .null) = false →
       jeqStr "listTools" (jgetD req "method" .null) = false →
       jeqStr "callTool" (jgetD req "method" .null) = false →
       handleRequest handler req =
         .ok ⟨jgetD req "id" .null,
              .rpcError (-32601) ("Unknown method: " ++ pyStr (jgetD req "method" .null))⟩)
    ∧ (∀ (pfs : List (String × Json)) (s : String),
        jeqStr "callTool" (jgetD req "method" .null) = true →
        jeqStr "initialize" (jgetD req "method" .null) = false →
        jeqStr "listTools" (jgetD req "method" .null) = false →
        (jfindVal req "params").getD (.obj []) = .obj pfs →
        jgetD pfs "name" .null = .str s → s ∉ toolNames →
        handleRequest handler req =
          .ok ⟨jgetD req "id" .null, .rpcError (-32601) ("Unknown tool: " ++ s)⟩)
    ∧ (∀ pfs : List (String × Json),
        jeqStr "callTool" (jgetD req "method" .null) = true →
        jeqStr "initialize" (jgetD req "method" .null) = false →
        jeqStr "listTools" (jgetD req "method" .null) = false →
        (jfindVal req "params").getD (.obj []) = .obj pfs →
        (jgetD pfs "name" .null).hashable = false →
        handleRequest handler req = .error .typeError) := by
  refine ⟨?_, ?_, ?_, ?_⟩
  · intro hparams
    unfold handleRequest
    by_cases h1 : jeqStr "initialize" (jgetD req "method" .null) = true
    · rw [if_pos h1]; exact ⟨_, rfl, rfl⟩
    · rw [if_neg h1]
      by_cases h2 : jeqStr "listTools" (jgetD req "method" .null) = true
      · rw [if_pos h2]; exact ⟨_, rfl, rfl⟩
      · rw [if_neg h2]
        by_cases h3 : jeqStr "callTool" (jgetD req "method" .null) = true
        · rw [if_pos h3]
          obtain ⟨pfs, hpfs, hhash⟩ := hparams h3
          rw [hpfs]
          dsimp only
          cases hname : jgetD pfs "name" .null with
          | str s =>
            dsimp only
            by_cases hmem : s ∈ toolNames
            · rw [if_pos hmem]
              cases handler s ((jfindVal pfs "arguments").getD (.obj [])) with
              | ok r => exact ⟨_, rfl, rfl⟩
              | error e => exact ⟨_, rfl, rfl⟩
            · rw [if_neg hmem]; exact ⟨_, rfl, rfl⟩
          | null => exact ⟨_, rfl, rfl⟩
          | bool b => exact ⟨_, rfl, rfl⟩
          | int n => exact ⟨_, rfl, rfl⟩
          | arr xs => rw [hname] at hhash; simp [Json.hashable] at hhash
          | obj fs => rw [hname] at hhash; simp [Json.hashable] at hhash
        · rw [if_neg h3]; exact ⟨_, rfl, rfl⟩
  · intro h1 h2 h3
    unfold handleRequest
    rw [if_neg (by rw [h1]; exact Bool.false_ne_true),
        if_neg (by rw [h2]; exact Bool.false_ne_true),
        if_neg (by rw [h3]; exact Bool.false_ne_true)]
  · intro pfs s h3 h1 h2 hpfs hname hmem
    unfold handleRequest
    rw [if_neg (by rw [h1]; exact Bool.false_ne_true),
        if_neg (by rw [h2]; exact Bool.false_ne_true),
        if_pos h3, hpfs]
    dsimp only
    rw [hname]
    dsimp only
    rw [if_neg hmem]
  · intro pfs h3 h1 h2 hpfs hhash
    unfold handleRequest
    rw [if_neg (by rw [h1]; exact Bool.false_ne_true),
        if_neg (by rw [h2]; exact Bool.false_ne_true),
        if_pos h3, hpfs]
    dsimp only
    cases hname : jgetD pfs "name" .null with
    | str s => rw [hname] at hhash; simp [Json.hashable] at hhash
    | null => rw [hname] at hhash; simp [Json.hashable] at hhash
    | bool b => rw [hname] at hhash; simp [Json.hashable] at hhash
    | int n => rw [hname] at hhash; simp [Json.hashable] at hhash
    | arr xs => rfl
    | obj fs => rfl

/-- Witness for C7: a `listTools` request with id 7 gets an `.ok` response
echoing id 7; a `callTool` request naming the unknown tool `"nope"` gets
the structured unknown-tool error; and a `callTool` request whose `name`
is the unhashable value `[]` raises `TypeError`. -/
theorem c7_dispatch_total_witness :
    (∃ resp, handleRequest (fun _ _ => .ok .null) [("method", .str "listTools"), ("id", .int 7)]
        = .ok resp
      ∧ resp.id = jgetD [("method", Json.str "listTools"), ("id", Json.int 7)] "id" .null)
    ∧ handleRequest (fun _ _ => .ok .null)
        [("method", .str "callTool"), ("id", .int 7),
         ("params", .obj [("name", .str "nope")])]
      = .ok ⟨jgetD [("method", Json.str "callTool"), ("id", Json.int 7),
                    ("params", Json.obj [("name", Json.str "nope")])] "id" .null,
             .rpcError (-32601) ("Unknown tool: " ++ "nope")⟩
    ∧ handleRequest (fun _ _ => .ok .null)
        [("method", .str "callTool"), ("id", .int 2),
         ("params", .obj [("name", .arr [])])]
      = .error .typeError :=
  ⟨(c7_dispatch_total (fun _ _ => .ok .null)
      [("method", .str "listTools"), ("id", .int 7)]).1
      (by intro h; exact absurd h (by decide)),
   (c7_dispatch_total (fun _ _ => .ok .null)
      [("method", .str "callTool"), ("id", .int 7),
       ("params", .obj [("name", .str "nope")])]).2.2.1
      [("name", .str "nope")] "nope" (by decide) (by decide) (by decide) rfl rfl
      (by decide),
   (c7_dispatch_total (fun _ _ => .ok .null)
      [("method", .str "callTool"), ("id", .int 2),
       ("params", .obj [("name", .arr [])])]).2.2.2
      [("name", .arr [])] (by decide) (by decide) (by decide) rfl rfl⟩

/-- **C7 counterexample.** (claim as stated is false) A `callTool` request
whose `params` field is present but not an object makes `handle_request`
raise `AttributeError` (`request.get("params", {})` only defaults when the
key is absent, and `5 .get(...)` has no such attribute) — so it does not
return a response echoing the id. -/
theorem c7_dispatch_counterexample :
    handleRequest (fun _ _ => .ok .null)
      [("method", .str "callTool"), ("params", .int 5), ("id", .int 1)]
      = .error .attributeError := rfl

/-! ## The current-prayer scan -/

/-- When some checkpoint is strictly later than `now`, the scan stops at
the first such index `i`: `next` is element `i` and `current` is the
element just before it in the list (`prev` when `i = 0`). -/
theorem scanGo_found (times : Prayer → Option String) (now : ℕ) :
    ∀ (l : List Prayer) (prev : Option Prayer),
      l.findIdx (isLaterChk times now) < l.length →
      scanGo times now prev l =
        ((if l.findIdx (isLaterChk times now) = 0 then prev
          else l[l.findIdx (isLaterChk times now) - 1]?),
         l[l.findIdx (isLaterChk times now)]?) := by
  intro l
  induction l with
  | nil => intro prev h; simp at h
  | cons p rest ih =>
    intro prev h
    unfold scanGo
    by_cases hp : isLaterChk times now p = true
    · rw [if_pos hp]
      simp [List.findIdx_cons, hp]
    · rw [if_neg hp]
      have hfind : (p :: rest).findIdx (isLaterChk times now)
          = rest.findIdx (isLaterChk times now) + 1 := by
        rw [List.findIdx_cons]
        simp [Bool.eq_false_iff.mpr hp]
      rw [hfind] at h ⊢
      have hj : rest.findIdx (isLaterChk times now) < rest.length := by
        simp only [List.length_cons] at h
        omega
      rw [ih (some p) hj]
      cases hcase : rest.findIdx (isLaterChk times now) with
      | zero => simp
      | succ k => simp

/-- When no checkpoint is later than `now`, the scan falls off the end. -/
theorem scanGo_allFalse (times : Prayer → Option String) (now : ℕ) :
    ∀ (l : List Prayer) (prev : Option Prayer),
      (∀ p ∈ l, isLaterChk times now p = false) →
      scanGo times now prev l = (none, none) := by
  intro l
  induction l with
  | nil => intro prev _; rfl
  | cons p rest ih =>
    intro prev hall
    unfold scanGo
    rw [if_neg (by rw [hall p (List.mem_cons_self _ _)]; exact Bool.false_ne_true)]
    exact ih (some p) (fun q hq => hall q (List.mem_cons_of_mem _ hq))

/-- The concrete day row of the claim, with string checkpoint times
`05:58, 07:12, 13:19, 16:25, 19:21, 20:30`. -/
def exRow : List (String × Json) :=
  [("fajr", .str "05:58"), ("syuruk", .str "07:12"), ("dhuhr", .str "13:19"),
   ("asr", .str "16:25"), ("maghrib", .str "19:21"), ("isha", .str "20:30")]

/-- **C2.** (current-prayer boundaries) On the claim's row, at 16:00 local
(57600 s) the result is `current="dhuhr"`, `next="asr"`; at 21:00 (75600 s)
it is `current="isha"`, `next="fajr"`.  In general, when the scan of the
six ordered checkpoints finds its first parseable checkpoint strictly
later than `now` at index `i`, `next_prayer` is that checkpoint and
`current_prayer` is the checkpoint immediately before it in the list —
`none` when `i = 0`. -/
theorem c2_current_prayer_boundaries :
    (currentNext (timesFromRow exRow) 57600 = (some "dhuhr", some "asr"))
    ∧ (currentNext (timesFromRow exRow) 75600 = (some "isha", some "fajr"))
    ∧ (∀ (times : Prayer → Option String) (now i : ℕ),
        prayersList.findIdx (isLaterChk times now) = i → i < 6 →
        currentNext times now =
          ((if i = 0 then none else prayersList[i - 1]?).map Prayer.name,
           (prayersList[i]?).map Prayer.name)) := by
  refine ⟨by decide, by decide, ?_⟩
  intro times now i hidx hi
  unfold currentNext
  rw [scanGo_found times now prayersList none (by rw [hidx]; simp [prayersList]; omega)]
  rw [hidx]
  have hlen : i < prayersList.length := by simp [prayersList]; omega
  have hp : prayersList[i]? = some prayersList[i] := List.getElem?_eq_getElem hlen
  rw [hp]
  cases hC : (if i = 0 then (none : Option Prayer) else prayersList[i - 1]?) with
  | none => simp
  | some q => simp

/-- Witness for C2's general clause at the claim's own row and 16:00: the
first later checkpoint is index 3 (`asr`), so `current` is index 2
(`dhuhr`). -/
theorem c2_current_prayer_boundaries_witness :
    currentNext (timesFromRow exRow) 57600 =
      ((if 3 = 0 then none else prayersList[3 - 1]?).map Prayer.name,
       (prayersList[3]?).map Prayer.name) :=
  c2_current_prayer_boundaries.2.2 (timesFromRow exRow) 57600 3 (by decide) (by decide)

/-- **C10.** (all-checkpoints-unusable fallback) If every one of the six
checkpoints is missing/null or fails to parse as `%H:%M`, the scan never
breaks, so the fallback reports `current="isha"`, `next="fajr"` whatever
the time of day is. -/
theorem c10_unparseable_row_fallback (times : Prayer → Option String) (now : ℕ)
    (h : ∀ p ∈ prayersList, (times p).bind parseHM = none) :
    currentNext times now = (some "isha", some "fajr") := by
  unfold currentNext
  rw [scanGo_allFalse times now prayersList none (by
    intro p hp
    unfold isLaterChk
    rw [h p hp])]

/-- Witness for C10: an empty row (every lookup `None`) at 12:00 noon. -/
theorem c10_unparseable_row_fallback_witness :
    currentNext (timesFromRow []) 43200 = (some "isha", some "fajr") :=
  c10_unparseable_row_fallback (timesFromRow []) 43200 (by decide)

/-! ## Zone-listing order and line structure -/

/-- `clLe` is total. -/
theorem clLe_total : ∀ x y : List Char, (clLe x y || clLe y x) = true := by
  intro x
  induction x with
  | nil => intro y; simp [clLe]
  | cons a xs ih =>
    intro y
    cases y with
    | nil => simp [clLe]
    | cons b ys =>
      unfold clLe
      by_cases hab : a = b
      · rw [if_pos hab, if_pos hab.symm]
        exact ih ys
      · rw [if_neg hab, if_neg (Ne.symm hab)]
        rcases lt_or_gt_of_ne hab with h | h
        · simp [decide_eq_true h]
        · simp [decide_eq_true h]

/-- `clLe` is transitive. -/
theorem clLe_trans : ∀ x y z : List Char,
    clLe x y = true → clLe y z = true → clLe x z = true := by
  intro x
  induction x with
  | nil => intro y z _ _; rfl
  | cons a xs ih =>
    intro y z hxy hyz
    cases y with
    | nil => exact absurd hxy (by simp [clLe])
    | cons b ys =>
      cases z with
      | nil => exact absurd hyz (by simp [clLe])
      | cons c zs =>
        unfold clLe at hxy hyz ⊢
        by_cases hab : a = b
        · rw [if_pos hab] at hxy
          by_cases hbc : b = c
          · rw [if_pos hbc] at hyz
            rw [if_pos (hab.trans hbc)]
            exact ih ys zs hxy hyz
          · rw [if_neg hbc] at hyz
            have hbc2 : b < c := of_decide_eq_true hyz
            rw [if_neg (by rw [hab]; exact hbc)]
            exact decide_eq_true (by rw [hab]; exact hbc2)
        · rw [if_neg hab] at hxy
          have habl : a < b := of_decide_eq_true hxy
          by_cases hbc : b = c
          · rw [if_pos hbc] at hyz
            rw [if_neg (by rw [← hbc]; exact hab)]
            exact decide_eq_true (hbc ▸ habl)
          · rw [if_neg hbc] at hyz
            have hbcl : b < c := of_decide_eq_true hyz
            have hacl : a < c := lt_trans habl hbcl
            rw [if_neg (ne_of_lt hacl)]
            exact decide_eq_true hacl

/-- `clLe` is antisymmetric. -/
theorem clLe_antisymm : ∀ x y : List Char,
    clLe x y = true → clLe y x = true → x = y := by
  intro x
  induction x with
  | nil =>
    intro y _ hyx
    cases y with
    | nil => rfl
    | cons b ys => exact absurd hyx (by simp [clLe])
  | cons a xs ih =>
    intro y hxy hyx
    cases y with
    | nil => exact absurd hxy (by simp [clLe])
    | cons b ys =>
      unfold clLe at hxy hyx
      by_cases hab : a = b
      · rw [if_pos hab] at hxy
        rw [if_pos hab.symm] at hyx
        rw [hab, ih ys hxy hyx]
      · rw [if_neg hab] at hxy
        rw [if_neg (Ne.symm hab)] at hyx
        exact absurd (of_decide_eq_true hyx) (lt_asymm (of_decide_eq_true hxy))

/-- Strings with equal character lists are equal. -/
theorem string_toList_eq {a b : String} (h : a.toList = b.toList) : a = b := by
  cases a
  cases b
  exact congrArg String.mk h

/-- The zone sort key order is total. -/
theorem zoneKeyLe_total : ∀ a b : Zone, (zoneKeyLe a b || zoneKeyLe b a) = true := by
  intro a b
  unfold zoneKeyLe
  by_cases hab : a.negeri = b.negeri
  · rw [if_pos hab, if_pos hab.symm]
    exact clLe_total _ _
  · rw [if_neg hab, if_neg (Ne.symm hab)]
    exact clLe_total _ _

/-- The zone sort key order is transitive. -/
theorem zoneKeyLe_trans : ∀ a b c : Zone,
    zoneKeyLe a b = true → zoneKeyLe b c = true → zoneKeyLe a c = true := by
  intro a b c hab hbc
  unfold zoneKeyLe at hab hbc ⊢
  by_cases h1 : a.negeri = b.negeri
  · rw [if_pos h1] at hab
    by_cases h2 : b.negeri = c.negeri
    · rw [if_pos h2] at hbc
      rw [if_pos (h1.trans h2)]
      exact clLe_trans _ _ _ hab hbc
    · rw [if_neg h2] at hbc
      rw [if_neg (by rw [h1]; exact h2), h1]
      exact hbc
  · rw [if_neg h1] at hab
    by_cases h2 : b.negeri = c.negeri
    · rw [if_pos h2] at hbc
      rw [if_neg (by rw [← h2]; exact h1), ← h2]
      exact hab
    · rw [if_neg h2] at hbc
      by_cases h3 : a.negeri = c.negeri
      · exfalso
        have hlists : a.negeri.toList = b.negeri.toList :=
          clLe_antisymm _ _ hab (by rw [h3]; exact hbc)
        exact h1 (string_toList_eq hlists)
      · rw [if_neg h3]
        exact clLe_trans _ _ _ hab hbc

/-- `toList` distributes over string append. -/
theorem toList_append (a b : String) : (a ++ b).toList = a.toList ++ b.toList := by
  cases a
  cases b
  rfl

/-- `nlFree` unfolded to a membership statement. -/
theorem nlFree_iff (s : String) : nlFree s = true ↔ ∀ c ∈ s.toList, c ≠ '\n' := by
  unfold nlFree
  simp only [List.any_eq_true, decide_eq_true_eq]
  constructor
  · intro h c hc he
    exact h ⟨c, hc, he⟩
  · intro h hex
    obtain ⟨c, hc, he⟩ := hex
    exact h c hc he

/-- The `splitNLCh` step at a newline. -/
theorem splitNLCh_cons_nl (rest : List Char) :
    splitNLCh ('\n' :: rest) = [] :: splitNLCh rest := rfl

/-- The `splitNLCh` step at a non-newline character. -/
theorem splitNLCh_cons_ne (c : Char) (rest : List Char) (hc : c ≠ '\n') :
    splitNLCh (c :: rest) =
      match splitNLCh rest with
      | [] => [[c]]
      | l :: ls => (c :: l) :: ls := by
  simp only [splitNLCh]
  rw [if_neg hc]

/-- A newline-free list splits to itself. -/
theorem splitNLCh_noNL : ∀ cs : List Char, (∀ c ∈ cs, c ≠ '\n') → splitNLCh cs = [cs] := by
  intro cs
  induction cs with
  | nil => intro _; rfl
  | cons c rest ih =>
    intro h
    rw [splitNLCh_cons_ne c rest (h c (List.mem_cons_self _ _))]
    rw [ih (fun d hd => h d (List.mem_cons_of_mem _ hd))]

/-- Splitting at the first newline of a composite list. -/
theorem splitNLCh_append : ∀ cs ds : List Char, (∀ c ∈ cs, c ≠ '\n') →
    splitNLCh (cs ++ '\n' :: ds) = cs :: splitNLCh ds := by
  intro cs
  induction cs with
  | nil =>
    intro ds _
    rw [List.nil_append]
    exact splitNLCh_cons_nl ds
  | cons c rest ih =>
    intro ds h
    rw [List.cons_append]
    rw [splitNLCh_cons_ne c _ (h c (List.mem_cons_self _ _))]
    rw [ih ds (fun d hd => h d (List.mem_cons_of_mem _ hd))]

/-- Splitting the `"\n".join` of non-empty, newline-free parts recovers the
parts. -/
theorem splitNLCh_joinNL : ∀ parts : List String, parts ≠ [] →
    (∀ x ∈ parts, nlFree x = true) →
    splitNLCh (joinNL parts).toList = parts.map String.toList := by
  intro parts
  induction parts with
  | nil => intro h _; exact absurd rfl h
  | cons x rest ih =>
    intro _ hnl
    cases rest with
    | nil =>
      show splitNLCh x.toList = [x.toList]
      exact splitNLCh_noNL x.toList
        ((nlFree_iff x).mp (hnl x (List.mem_cons_self _ _)))
    | cons y rest2 =>
      show splitNLCh ((x ++ "\n" ++ joinNL (y :: rest2)).toList) = _
      have hx : ∀ c ∈ x.toList, c ≠ '\n' :=
        (nlFree_iff x).mp (hnl x (List.mem_cons_self _ _))
      rw [toList_append, toList_append]
      have hnlist : ("\n" : String).toList = ['\n'] := rfl
      rw [hnlist, List.append_assoc, List.singleton_append]
      rw [splitNLCh_append x.toList _ hx]
      rw [ih (by simp) (fun z hz => hnl z (List.mem_cons_of_mem _ hz))]
      rfl

/-- `pyLines` inverts `joinNL` on non-empty newline-free parts. -/
theorem pyLines_joinNL (parts : List String) (hne : parts ≠ [])
    (hnl : ∀ x ∈ parts, nlFree x = true) : pyLines (joinNL parts) = parts := by
  unfold pyLines
  rw [splitNLCh_joinNL parts hne hnl, List.map_map]
  have hid : ((fun cs : List Char => (⟨cs⟩ : String)) ∘ String.toList) = id :=
    funext (fun s => rfl)
  rw [hid, List.map_id]

/-- A formatted zone line is newline-free when the zone fields are. -/
theorem fmtZone_nlFree (z : Zone) (h : z.nlFreeFields = true) :
    nlFree (fmtZone z) = true := by
  unfold Zone.nlFreeFields at h
  simp only [Bool.and_eq_true] at h
  obtain ⟨⟨hn, hc⟩, hg⟩ := h
  rw [nlFree_iff] at hn hc hg ⊢
  unfold fmtZone
  intro ch hch
  have e1 : ((": " : String).toList) = [':', ' '] := rfl
  have e2 : ((" (" : String).toList) = [' ', '('] := rfl
  have e3 : ((")" : String).toList) = [')'] := rfl
  simp only [toList_append, List.mem_append] at hch
  rcases hch with (((((h1 | h2) | h3) | h4) | h5) | h6)
  · exact hc ch h1
  · rw [e1] at h2
    simp at h2
    rcases h2 with h | h <;> (rw [h]; decide)
  · exact hn ch h3
  · rw [e2] at h4
    simp at h4
    rcases h4 with h | h <;> (rw [h]; decide)
  · exact hg ch h5
  · rw [e3] at h6
    simp at h6
    rw [h6]
    decide

/-- **C8 (amended).** (zone listing) For a non-empty zone list whose fields
contain no newline character, `handle_list_zones` emits exactly one line
per zone, each of the form `CODE: Name (State)` (the `fmtZone` shape), with
the zones sorted ascending by the key `(state, code)`: the lines are the
formatted zones of `sortZones zs`, which is a permutation of `zs` that is
pairwise ordered by `zoneKeyLe`. -/
theorem c8_list_zones_sorted_lines (zs : List Zone) (hne : zs ≠ [])
    (hnl : ∀ z ∈ zs, z.nlFreeFields = true) :
    pyLines (handleListZones zs) = (sortZones zs).map fmtZone
    ∧ (sortZones zs).Perm zs
    ∧ List.Pairwise (fun a b => zoneKeyLe a b = true) (sortZones zs) := by
  have hperm : (sortZones zs).Perm zs := List.mergeSort_perm zs zoneKeyLe
  refine ⟨?_, hperm, List.sorted_mergeSort zoneKeyLe_trans zoneKeyLe_total zs⟩
  unfold handleListZones
  apply pyLines_joinNL
  · intro hmap
    have : sortZones zs = [] := by
      cases hs : sortZones zs with
      | nil => rfl
      | cons z t => rw [hs] at hmap; exact absurd hmap (by simp)
    exact hne (List.Perm.eq_nil (this ▸ hperm.symm))
  · intro x hx
    obtain ⟨z, hz, hfx⟩ := List.mem_map.mp hx
    rw [← hfx]
    exact fmtZone_nlFree z (hnl z (hperm.subset hz))

/-- Witness for C8 on a concrete singleton zone list. -/
theorem c8_list_zones_sorted_lines_witness :
    pyLines (handleListZones [⟨"Gombak", "SGR01", "Selangor"⟩])
      = (sortZones [⟨"Gombak", "SGR01", "Selangor"⟩]).map fmtZone
    ∧ (sortZones [⟨"Gombak", "SGR01", "Selangor"⟩]).Perm [⟨"Gombak", "SGR01", "Selangor"⟩]
    ∧ List.Pairwise (fun a b => zoneKeyLe a b = true)
        (sortZones [⟨"Gombak", "SGR01", "Selangor"⟩]) :=
  c8_list_zones_sorted_lines [⟨"Gombak", "SGR01", "Selangor"⟩]
    (by simp) (by intro z hz; rw [List.mem_singleton.mp hz]; decide)

/-- **C8 counterexample.** (claim as stated is false) The zone fetch
accepts a `daerah` containing an interior newline — `Zone` validation only
strips ends and checks non-emptiness — and for such a zone the listing
emits two lines for the single zone, breaking "exactly one line per
zone". -/
theorem c8_claim_counterexample :
    getZones (.arr [.obj [("daerah", .str "A\nB"), ("jakimCode", .str "SGR01"),
                          ("negeri", .str "Selangor")]])
      = .ok [⟨"A\nB", "SGR01", "Selangor"⟩]
    ∧ (pyLines (handleListZones [⟨"A\nB", "SGR01", "Selangor"⟩])).length = 2
    ∧ [(⟨"A\nB", "SGR01", "Selangor"⟩ : Zone)].length = 1 := by
  refine ⟨rfl, ?_, rfl⟩
  have hsort : sortZones [(⟨"A\nB", "SGR01", "Selangor"⟩ : Zone)]
      = [⟨"A\nB", "SGR01", "Selangor"⟩] :=
    List.perm_singleton.mp (List.mergeSort_perm _ zoneKeyLe)
  unfold handleListZones
  rw [hsort]
  decide

/-! ## `get_prayer_times` record validity -/

/-- A value accepted by the required-time-field validator matches
`TIME_PATTERN`. -/
theorem reqT_some {v : Option String} {s : String} (h : reqT v = some s) :
    timePattern s = true := by
  unfold reqT at h
  cases v with
  | none => simp at h
  | some t =>
    dsimp only at h
    by_cases ht : timePattern t = true
    · rw [if_pos ht] at h
      injection h with h2
      rw [← h2]
      exact ht
    · rw [if_neg ht] at h
      simp at h

/-- A present value accepted by the `imsak` validator matches
`TIME_PATTERN`. -/
theorem imsT_some_str {j : Json} {o : Option String} {s : String}
    (h : imsT j = some o) (hs : o = some s) : timePattern s = true := by
  unfold imsT at h
  cases j with
  | null =>
    injection h with h2
    rw [← h2] at hs
    simp at hs
  | str t =>
    dsimp only at h
    by_cases ht : timePattern t = true
    · rw [if_pos ht] at h
      injection h with h2
      rw [← h2] at hs
      injection hs with h3
      rw [← h3]
      exact ht
    · rw [if_neg ht] at h
      simp at h
  | bool b => simp at h
  | int n => simp at h
  | arr xs => simp at h
  | obj fs => simp at h

/-- Only records satisfying all the field validators leave
`model_validate`. -/
theorem modelValidate_valid {dateJ : Json} {dayStr : String} {imsakJ : Json}
    {times : Prayer → Option String} {r : PrayerTimes}
    (h : modelValidate dateJ dayStr imsakJ times = some r) :
    validRecord r = true := by
  unfold modelValidate at h
  cases dateJ with
  | str ds =>
    dsimp only at h
    by_cases hd : (parseDate ds).isSome = true
    · rw [if_pos hd] at h
      split at h
      · rename_i ims f sy dh a mg ish h1 h2 h3 h4 h5 h6 h7
        injection h with h2r
        subst h2r
        unfold validRecord
        dsimp only
        have him : imsakOk ims = true := by
          cases ims with
          | none => rfl
          | some s => exact imsT_some_str h1 rfl
        simp only [hd, him, reqT_some h2, reqT_some h3, reqT_some h4, reqT_some h5,
          reqT_some h6, reqT_some h7, Bool.and_true, Bool.true_and]
      · simp at h
    · rw [if_neg hd] at h
      simp at h
  | null => simp at h
  | bool b => simp at h
  | int n => simp at h
  | arr xs => simp at h
  | obj fs => simp at h

/-- Only validated records leave one loop iteration. -/
theorem processItem_some_valid {data : Json} {now : NowCtx} {item : Json}
    {r : PrayerTimes} (h : processItem data now item = .ok (some r)) :
    validRecord r = true := by
  unfold processItem at h
  cases hall : allContains item requiredKeys with
  | error e => rw [hall] at h; simp at h
  | ok b =>
    rw [hall] at h
    cases b with
    | false => simp at h
    | true =>
      cases item with
      | obj ifs =>
        dsimp only at h
        cases hdd : dateAndDay data now ifs with
        | error e => rw [hdd] at h; simp at h
        | ok dd =>
          rw [hdd] at h
          dsimp only at h
          injection h with h2
          exact modelValidate_valid h2
      | null => simp at h
      | bool x => simp at h
      | int x => simp at h
      | str x => simp at h
      | arr x => simp at h

/-- Only validated records leave the item loop. -/
theorem processItems_valid {data : Json} {now : NowCtx} :
    ∀ {items : List Json} {l : List PrayerTimes},
      processItems data now items = .ok l → ∀ r ∈ l, validRecord r = true := by
  intro items
  induction items with
  | nil =>
    intro l h r hr
    injection h with h2
    subst h2
    simp at hr
  | cons item rest ih =>
    intro l h r hr
    unfold processItems at h
    cases hpi : processItem data now item with
    | error e => rw [hpi] at h; simp at h
    | ok o =>
      rw [hpi] at h
      dsimp only at h
      cases hpr : processItems data now rest with
      | error e => rw [hpr] at h; simp at h
      | ok tail =>
        rw [hpr] at h
        dsimp only at h
        injection h with h2
        subst h2
        cases o with
        | some pt =>
          rcases List.mem_cons.mp hr with hq | hq
          · subst hq
            exact processItem_some_valid hpi
          · exact ih hpr r hq
        | none => exact ih hpr r hr

/-- **C1 (amended).** (response normalisation invariant) Whenever
`get_prayer_times` returns a (possibly empty) list, every record satisfies
the full `PrayerTimes` invariant — `date` parses with `%Y-%m-%d` and every
present time field matches the validator regex `TIME_PATTERN`
`^([0-1]?[0-9]|2[0-3]):[0-5][0-9]$` (which, unlike a strict two-digit
`HH:MM`, also accepts a one-digit hour and one trailing newline) — so a
partially-invalid record is never returned; and with a well-formed zone an
unrecognised payload shape raises the `ResponseError` variant. -/
theorem c1_records_validated :
    (∀ (zone : String) (payload : Json) (now : NowCtx) (l : List PrayerTimes),
      getPrayerTimes zone payload now = .ok l → ∀ r ∈ l, validRecord r = true)
    ∧ (∀ (zone : String) (payload : Json) (now : NowCtx) (e : PyErr),
        zoneMatch zone = true → shapePrayers payload = .error e →
        getPrayerTimes zone payload now = .error e ∧ e.isResponseError = true) := by
  constructor
  · intro zone payload now l h r hr
    unfold getPrayerTimes at h
    by_cases hz : zoneMatch zone = true
    · rw [if_neg (by simp [hz])] at h
      cases hs : shapePrayers payload with
      | error e => rw [hs] at h; simp at h
      | ok pd =>
        rw [hs] at h
        dsimp only at h
        by_cases hemp : pd.isEmpty = true
        · rw [if_pos hemp] at h
          injection h with h2
          subst h2
          simp at hr
        · rw [if_neg hemp] at h
          exact processItems_valid h r hr
    · rw [if_pos (by simpa using hz)] at h
      simp at h
  · intro zone payload now e hz hs
    refine ⟨?_, ?_⟩
    · unfold getPrayerTimes
      rw [if_neg (by simp [hz]), hs]
    · unfold shapePrayers at hs
      cases payload with
      | obj fs =>
        dsimp only at hs
        cases hjv : jfindVal fs "prayers" with
        | none =>
          rw [hjv] at hs
          injection hs with h2
          rw [← h2]
          rfl
        | some v =>
          rw [hjv] at hs
          cases v with
          | arr xs => simp at hs
          | null => injection hs with h2; rw [← h2]; rfl
          | bool b => injection hs with h2; rw [← h2]; rfl
          | int n => injection hs with h2; rw [← h2]; rfl
          | str s => injection hs with h2; rw [← h2]; rfl
          | obj fs2 => injection hs with h2; rw [← h2]; rfl
      | arr xs => simp at hs
      | null => injection hs with h2; rw [← h2]; rfl
      | bool b => injection hs with h2; rw [← h2]; rfl
      | int n => injection hs with h2; rw [← h2]; rfl
      | str s => injection hs with h2; rw [← h2]; rfl

/-- A successful upstream payload whose `fajr` string has a one-digit
hour. -/
def c1Payload : Json :=
  .obj [("prayers", .arr [.obj [
    ("day", .int 4), ("date", .str "2024-04-04"),
    ("fajr", .str "7:12"), ("syuruk", .str "07:12"), ("dhuhr", .str "13:19"),
    ("asr", .str "16:25"), ("maghrib", .str "19:21"), ("isha", .str "20:30")]])]

/-- **C1 counterexample.** (claim as stated is false) `TIME_PATTERN`
accepts the one-digit-hour string `"7:12"`, so `get_prayer_times` returns
a record whose `fajr` is `"7:12"` — which does NOT match a strict
two-digit `HH:MM` 24-hour pattern. -/
theorem c1_claim_counterexample :
    getPrayerTimes "SGR01" c1Payload ⟨2024, 4⟩ =
      .ok [⟨"2024-04-04", "Thursday", none, "7:12", "07:12", "13:19",
            "16:25", "19:21", "20:30"⟩]
    ∧ strictHHMM "7:12" = false ∧ timePattern "7:12" = true :=
  ⟨rfl, rfl, rfl⟩

/-- Witness for C1 at the same concrete payload: the returned record does
satisfy the full validator invariant. -/
theorem c1_records_validated_witness :
    validRecord ⟨"2024-04-04", "Thursday", none, "7:12", "07:12", "13:19",
                 "16:25", "19:21", "20:30"⟩ = true :=
  c1_records_validated.1 "SGR01" c1Payload ⟨2024, 4⟩
    [⟨"2024-04-04", "Thursday", none, "7:12", "07:12", "13:19",
      "16:25", "19:21", "20:30"⟩] rfl
    ⟨"2024-04-04", "Thursday", none, "7:12", "07:12", "13:19",
     "16:25", "19:21", "20:30"⟩ (List.mem_singleton.mpr rfl)

end WaktuSolat
